import Mathlib

/-!
Shallow embedding of the route-coverage scoring engine of the 5G-Coverage
repository (`src/services/CoverageCalculator`-style module, file
`src/unnamed/part_000`), together with theorems settling the frozen claims.

Modelling conventions:
* JavaScript numbers are idealized as exact rationals (`ℚ`); the haversine
  distance, which uses trigonometric functions, is a real (`ℝ`).
* A JavaScript numeric value that can be `NaN` is modelled as `Option ℚ`,
  with `none` standing for `NaN` (`undefined++` yields `NaN`, `NaN + x`
  yields `NaN`, `0 / 0` yields `NaN`).
* A JavaScript object used as a string-keyed record with insertion order
  (the `coverageDetails` breakdown) is modelled as an association list.
* A JavaScript `Map` is modelled as an association list where insertion
  prepends; `Map.get` is `List.lookup` (first match = most recent write).
* A JavaScript `Set` of object references deduplicates by identity; since
  every indexed point is an element of the calculator's `points` array,
  identity is modelled by the point's array index (`ℕ`).
-/

/-- Geographic coordinate pair as exposed by `google.maps.LatLng`
(`p.lat()` / `p.lng()`). -/
structure LatLng where
  lat : ℚ
  lng : ℚ
deriving DecidableEq

/-- The `properties` record of a `CoveragePoint`
(`src/types/coverage.ts`): `operator`, `city_name`, `status` are required
strings; `country` and `phone_type` are optional. -/
structure PointProperties where
  operator : String
  city_name : String
  status : String
  country : Option String
  phone_type : Option String
deriving DecidableEq

/-- A coverage observation. `geometry.coordinates` is a GeoJSON
`[lng, lat]` pair; we keep the pair in that order. -/
structure CoveragePoint where
  properties : PointProperties
  coordinates : ℚ × ℚ
deriving DecidableEq

/-- Longitude is the first GeoJSON coordinate
(`const [lng, lat] = point.geometry.coordinates`). -/
def CoveragePoint.lng (p : CoveragePoint) : ℚ := p.coordinates.1

/-- Latitude is the second GeoJSON coordinate. -/
def CoveragePoint.lat (p : CoveragePoint) : ℚ := p.coordinates.2

/-- The `FilterState` interface: four allow-lists. -/
structure FilterState where
  countries : List String
  phoneTypes : List String
  operators : List String
  statuses : List String
deriving DecidableEq

/-- The `COVERAGE_WEIGHTS` constant object, as a partial lookup:
`{'5G': 1.0, '4G': 0.7, '3G': 0.4, 'other': 0.1}`; any other key reads
`undefined` (modelled `none`). -/
def COVERAGE_WEIGHTS (status : String) : Option ℚ :=
  if status = "5G" then some 1
  else if status = "4G" then some (7/10)
  else if status = "3G" then some (2/5)
  else if status = "other" then some (1/10)
  else none

/-- The weight actually added to the running score:
`COVERAGE_WEIGHTS[status] || COVERAGE_WEIGHTS.other`.  Every value present
in the table is nonzero hence truthy, so `||` returns the table entry when
the key is present and `0.1` otherwise. -/
def weightOf (status : String) : ℚ := (COVERAGE_WEIGHTS status).getD (1/10)

/-- The source constant `DEFAULT_SEARCH_RADIUS = 0.01`, with the source
comment "Approximately 1km in degrees". -/
def DEFAULT_SEARCH_RADIUS : ℚ := 1/100

/-- The source constant `SEGMENT_LENGTH = 5` (points per segment). -/
def SEGMENT_LENGTH : ℕ := 5

/-- The grid cell size used by `getGridKey` and `getNearbyGridKeys`
(`const gridSize = 0.1`). -/
def gridSize : ℚ := 1/10

/-- A grid key.  The source renders the pair as the string
`"latKey,lngKey"`; number rendering is injective and comma-free, so the
string key is in bijection with the ordered pair and we use the pair. -/
abbrev GridKey := ℚ × ℚ

/-- A point together with its index in the calculator's `points` array;
the index models JavaScript object identity for `Set` deduplication. -/
abbrev IndexedPoint := ℕ × CoveragePoint

/-- The cell key of `getGridKey`:
`(Math.floor(lat/gridSize)*gridSize, Math.floor(lng/gridSize)*gridSize)`. -/
def getGridKey (lat lng : ℚ) : GridKey :=
  (⌊lat / gridSize⌋ * gridSize, ⌊lng / gridSize⌋ * gridSize)

/-- Model of `buildSpatialIndex`: every point is pushed onto the bucket of its own
grid key; the map is modelled as a function from keys to bucket lists
(missing key = empty bucket), built by the same left-to-right pass. -/
def buildSpatialIndex (points : List CoveragePoint) : GridKey → List IndexedPoint :=
  points.enum.foldl
    (fun index ip key =>
      if key = getGridKey ip.2.lat ip.2.lng then index key ++ [ip] else index key)
    (fun _ => [])

/-- Model of `getNearbyGridKeys`: the 3x3 neighborhood of cell keys around the
cell containing `(lat, lng)`, outer loop `i`, inner loop `j`, each from
`-1` to `1`.  The `radius` parameter is accepted and ignored, as in the
source. -/
def getNearbyGridKeys (lat lng : ℚ) (_radius : ℚ) : List GridKey :=
  let latKey := ⌊lat / gridSize⌋ * gridSize
  let lngKey := ⌊lng / gridSize⌋ * gridSize
  ([-1, 0, 1] : List ℚ).flatMap fun i =>
    ([-1, 0, 1] : List ℚ).map fun j =>
      (latKey + i * gridSize, lngKey + j * gridSize)

/-- Truthiness of an optional JavaScript string: `undefined` and the empty
string are falsy, every other string is truthy. -/
def optTruthy : Option String → Bool
  | none => false
  | some s => !(s = "")

/-- The first early return of the filter block:
`filters.countries.length > 0 && point.properties.country &&
!filters.countries.includes(point.properties.country)`. -/
def countryBlocked (filters : FilterState) (p : CoveragePoint) : Bool :=
  !filters.countries.isEmpty && optTruthy p.properties.country &&
    !(filters.countries.contains (p.properties.country.getD ""))

/-- The second early return, for `phone_type`, with the same truthiness
guard. -/
def phoneTypeBlocked (filters : FilterState) (p : CoveragePoint) : Bool :=
  !filters.phoneTypes.isEmpty && optTruthy p.properties.phone_type &&
    !(filters.phoneTypes.contains (p.properties.phone_type.getD ""))

/-- The third early return:
`filters.operators.length > 0 && !filters.operators.includes(op)`
(no truthiness guard; `operator` is a required string). -/
def operatorBlocked (filters : FilterState) (p : CoveragePoint) : Bool :=
  !filters.operators.isEmpty && !(filters.operators.contains p.properties.operator)

/-- The fourth early return, for `status` (required string). -/
def statusBlocked (filters : FilterState) (p : CoveragePoint) : Bool :=
  !filters.statuses.isEmpty && !(filters.statuses.contains p.properties.status)

/-- A point survives the filter block iff none of the four early returns
fires. -/
def passesFilter (filters : FilterState) (p : CoveragePoint) : Bool :=
  !countryBlocked filters p && !phoneTypeBlocked filters p &&
    !operatorBlocked filters p && !statusBlocked filters p

example : passesFilter ⟨[], [], [], []⟩
    ⟨⟨"Op", "City", "5G", none, none⟩, (0, 0)⟩ = true := by decide

example : passesFilter ⟨["CA"], [], [], []⟩
    ⟨⟨"Op", "City", "5G", none, none⟩, (0, 0)⟩ = true := by decide

example : passesFilter ⟨["CA"], [], [], []⟩
    ⟨⟨"Op", "City", "5G", some "US", none⟩, (0, 0)⟩ = false := by decide

/-- Degrees to radians: `degrees * (Math.PI / 180)`. -/
noncomputable def toRad (degrees : ℝ) : ℝ := degrees * (Real.pi / 180)

/-- Model of `Math.atan2(y, x)`: the argument of the complex number `x + y*i`
(range `(-pi, pi]` on our inputs, matching JavaScript). -/
noncomputable def atan2 (y x : ℝ) : ℝ := Complex.arg (x + y * Complex.I)

/-- Model of `haversineDistance(lat1, lon1, lat2, lon2)`: great-circle distance in
kilometers with Earth radius `R = 6371`. -/
noncomputable def haversineDistance (lat1 lon1 lat2 lon2 : ℝ) : ℝ :=
  let R : ℝ := 6371
  let dLat := toRad (lat2 - lat1)
  let dLon := toRad (lon2 - lon1)
  let a := Real.sin (dLat / 2) * Real.sin (dLat / 2) +
    Real.cos (toRad lat1) * Real.cos (toRad lat2) *
      Real.sin (dLon / 2) * Real.sin (dLon / 2)
  let c := 2 * atan2 (Real.sqrt a) (Real.sqrt (1 - a))
  R * c

/-- The `isNearby` check: the candidate at `(lat, lng)` is within
`radius` of at least one segment point
(`segment.some(p => haversineDistance(lat, lng, p.lat(), p.lng()) <= searchRadius)`). -/
def Nearby (segment : List LatLng) (lat lng : ℚ) (radius : ℚ) : Prop :=
  ∃ p ∈ segment,
    haversineDistance (lat : ℝ) (lng : ℝ) (p.lat : ℝ) (p.lng : ℝ) ≤ (radius : ℝ)

/-- The `coverageDetails` object: a string-keyed record in insertion
order, whose values are JavaScript numbers (`none` models `NaN`). -/
abbrev Breakdown := List (String × Option ℚ)

/-- The initial breakdown literal `{'5G': 0, '4G': 0, '3G': 0, 'other': 0}`. -/
def initialCoverageDetails : Breakdown :=
  [("5G", some 0), ("4G", some 0), ("3G", some 0), ("other", some 0)]

/-- Increment of a JavaScript numeric value: `NaN` stays `NaN`. -/
def jsInc : Option ℚ → Option ℚ
  | some n => some (n + 1)
  | none => none

/-- Model of `coverageDetails[status]++`: an existing key is incremented in place;
an absent key reads `undefined`, which coerces to `NaN`, and the new key
is stored with `NaN + 1 = NaN`. -/
def bumpStatus (b : Breakdown) (status : String) : Breakdown :=
  if status ∈ b.map Prod.fst then
    b.map fun kv => if kv.1 = status then (kv.1, jsInc kv.2) else kv
  else b ++ [(status, none)]

/-- The mutable per-segment accumulators `coverageDetails`, `totalPoints`
and `coverageScore`. -/
structure SegState where
  coverageDetails : Breakdown
  totalPoints : ℕ
  coverageScore : ℚ
deriving DecidableEq

/-- The accumulators' initial values. -/
def initialSegState : SegState := ⟨initialCoverageDetails, 0, 0⟩

/-- Model of `nearbyPoints.add(p)` on the candidate `Set`: a point already present
(same identity, i.e. same array index) is not added again; insertion
order is preserved. -/
def addCandidate (acc : List IndexedPoint) (ip : IndexedPoint) : List IndexedPoint :=
  if ip.1 ∈ acc.map Prod.fst then acc else acc ++ [ip]

/-- The candidate-collection loop of `calculateSegmentCoverage`: for each
segment point, for each of its nearby grid keys, add every point of that
bucket to the set. -/
def collectNearby (index : GridKey → List IndexedPoint) (segment : List LatLng)
    (radius : ℚ) : List IndexedPoint :=
  segment.foldl
    (fun acc p =>
      (getNearbyGridKeys p.lat p.lng radius).foldl
        (fun acc2 key => (index key).foldl addCandidate acc2) acc)
    []

open Classical in
/-- The body of the `Array.from(nearbyPoints).forEach` loop: a candidate
that survives the four filter early-returns and the distance test bumps
its status key, the total count, and the running score. -/
noncomputable def processPoint (segment : List LatLng) (filters : FilterState)
    (radius : ℚ) (st : SegState) (ip : IndexedPoint) : SegState :=
  let p := ip.2
  if passesFilter filters p then
    if Nearby segment p.lat p.lng radius then
      { coverageDetails := bumpStatus st.coverageDetails p.properties.status
        totalPoints := st.totalPoints + 1
        coverageScore := st.coverageScore + weightOf p.properties.status }
    else st
  else st

/-- The `RouteSegment` result record. -/
structure RouteSegment where
  path : List LatLng
  coverage : ℚ
  coverageDetails : Breakdown
deriving DecidableEq

/-- The cache-miss path of `calculateSegmentCoverage`: collect candidates,
process them, and normalize the score
(`totalPoints > 0 ? coverageScore / totalPoints : 0`). -/
noncomputable def computeSegment (points : List CoveragePoint)
    (segment : List LatLng) (filters : FilterState) (radius : ℚ) : RouteSegment :=
  let nearbyPoints := collectNearby (buildSpatialIndex points) segment radius
  let st := nearbyPoints.foldl (processPoint segment filters radius) initialSegState
  let normalizedCoverage : ℚ :=
    if 0 < st.totalPoints then st.coverageScore / (st.totalPoints : ℚ) else 0
  { path := segment, coverage := normalizedCoverage, coverageDetails := st.coverageDetails }

/-- Decimal digit character; inputs are always digit values below ten. -/
def digitChar : ℕ → Char
  | 0 => '0'
  | 1 => '1'
  | 2 => '2'
  | 3 => '3'
  | 4 => '4'
  | 5 => '5'
  | 6 => '6'
  | 7 => '7'
  | 8 => '8'
  | _ => '9'

/-- Left inverse of `digitChar` on digit characters. -/
def digitVal : Char → ℕ
  | '1' => 1
  | '2' => 2
  | '3' => 3
  | '4' => 4
  | '5' => 5
  | '6' => 6
  | '7' => 7
  | '8' => 8
  | '9' => 9
  | _ => 0

/-- Decimal rendering of a natural number (most significant digit first;
zero renders as the empty digit string, which is harmless because only
injectivity and the character set matter for the cache key). -/
def natStr (n : ℕ) : List Char := ((Nat.digits 10 n).map digitChar).reverse

/-- Rendering of an integer: a minus sign followed by the digits when
negative. -/
def intStr (n : ℤ) : List Char :=
  if n < 0 then '-' :: natStr n.natAbs else natStr n.toNat

/-- Rendering of a rational for string interpolation.  JavaScript renders
the interpolated coordinates as decimal numerals; any injective,
separator-free rendering gives the same fingerprint semantics, and we use
`numerator/denominator`, whose characters are digits, `-` and `/`. -/
def ratStr (q : ℚ) : List Char := intStr q.num ++ '/' :: natStr q.den

/-- Model of `Array.prototype.join(sep)`: the empty array joins to the empty
string. -/
def joinSep (sep : Char) : List (List Char) → List Char
  | [] => []
  | [x] => x
  | x :: y :: ys => x ++ sep :: joinSep sep (y :: ys)

/-- JSON escaping of one character: a quote or backslash is preceded by a
backslash (`JSON.stringify`'s control-character escapes are not modelled;
they affect neither injectivity nor any claim). -/
def escChar (c : Char) : List Char :=
  if c = '"' ∨ c = '\\' then ['\\', c] else [c]

/-- JSON escaping of a character sequence. -/
def escStr (s : List Char) : List Char := s.flatMap escChar

/-- A JSON string literal: the escaped characters between quotes. -/
def quoteStr (s : String) : List Char := '"' :: (escStr s.data ++ ['"'])

/-- A JSON array of strings, e.g. `["a","b"]`. -/
def arrStr (xs : List String) : List Char :=
  '[' :: (joinSep ',' (xs.map quoteStr) ++ [']'])

/-- Model of `JSON.stringify(filters)`: the four properties in declaration order,
without whitespace. -/
def serializeFilters (f : FilterState) : List Char :=
  '\x7b' :: (quoteStr "countries" ++ ':' :: arrStr f.countries ++
    ',' :: quoteStr "phoneTypes" ++ ':' :: arrStr f.phoneTypes ++
    ',' :: quoteStr "operators" ++ ':' :: arrStr f.operators ++
    ',' :: quoteStr "statuses" ++ ':' :: arrStr f.statuses ++ ['\x7d'])

/-- The per-point token of the segment key:
the template `lat,lng` for one segment point. -/
def coordToken (p : LatLng) : List Char := ratStr p.lat ++ ',' :: ratStr p.lng

/-- Model of `getCacheKey`: the segment tokens joined by `|`, then `|`, then the
serialized filters. -/
def getCacheKey (segment : List LatLng) (filters : FilterState) : String :=
  ⟨joinSep '|' (segment.map coordToken) ++ '|' :: serializeFilters filters⟩

/-- The calculator: the immutable point set plus the mutable cache (the
spatial index is the value `buildSpatialIndex points`, built once from the
immutable point set). -/
structure Calculator where
  points : List CoveragePoint
  cache : List (String × RouteSegment)

/-- The constructor `new CoverageCalculator(points)`: empty cache. -/
def Calculator.init (points : List CoveragePoint) : Calculator := ⟨points, []⟩

/-- Model of `calculateSegmentCoverage`, cache included: a hit returns the stored
`RouteSegment` unchanged; a miss computes, stores, and returns.  The
radius is an explicit argument; call sites that rely on the default pass
`DEFAULT_SEARCH_RADIUS`. -/
noncomputable def calculateSegmentCoverage (c : Calculator) (segment : List LatLng)
    (filters : FilterState) (searchRadius : ℚ) : RouteSegment × Calculator :=
  let cacheKey := getCacheKey segment filters
  match c.cache.lookup cacheKey with
  | some r => (r, c)
  | none =>
    let result := computeSegment c.points segment filters searchRadius
    (result, { c with cache := (cacheKey, result) :: c.cache })

/-- String rendering of a rational for the color template. -/
def ratToString (q : ℚ) : String := ⟨ratStr q⟩

/-- Model of `getCoverageColor`: out-of-range scores are clamped (the console
warning is a side effect outside the model); the hue is linear from 0 at
score 0 to 120 at score 1. -/
def getCoverageColor (coverage : ℚ) : String :=
  let clamped := max 0 (min 1 coverage)
  "hsl(" ++ ratToString (clamped * 120) ++ ", 100%, 50%)"

/-- One entry of `stats.coverageDistribution`; `nearbyPoints` is a
JavaScript number that is `NaN` whenever a breakdown value is `NaN`. -/
structure DistributionEntry where
  coverage : ℚ
  color : String
  nearbyPoints : Option ℚ
deriving DecidableEq

/-- The `stats` record of `analyzeRouteCoverage`; `averageCoverage` is a
JavaScript number that is `NaN` (modelled `none`) when there are zero
kept segments (`0 / 0`). -/
structure CoverageStats where
  totalSegments : ℕ
  averageCoverage : Option ℚ
  coverageDistribution : List DistributionEntry
deriving DecidableEq

/-- The full result of `analyzeRouteCoverage`. -/
structure RouteAnalysis where
  segments : List RouteSegment
  stats : CoverageStats
deriving DecidableEq

/-- JavaScript addition on possibly-`NaN` numbers. -/
def jsAdd : Option ℚ → Option ℚ → Option ℚ
  | some a, some b => some (a + b)
  | _, _ => none

/-- Model of `Object.values(details).reduce((a, b) => a + b, 0)`. -/
def jsSum (vals : List (Option ℚ)) : Option ℚ := vals.foldl jsAdd (some 0)

/-- Model of `count > 0`, which is false on `NaN`. -/
def jsPos : Option ℚ → Bool
  | some q => decide (0 < q)
  | none => false

/-- The keep test `Object.values(result.coverageDetails).some(c => c > 0)`. -/
def hasPositiveCount (r : RouteSegment) : Bool :=
  (r.coverageDetails.map Prod.snd).any jsPos

/-- Model of `path.slice(i, i + SEGMENT_LENGTH)` for `i = 0, 5, 10, ...`: the
chunks of the route, last remainder chunk included. -/
def chunkPath : List LatLng → List (List LatLng)
  | [] => []
  | a :: l => ((a :: l).take SEGMENT_LENGTH) :: chunkPath ((a :: l).drop SEGMENT_LENGTH)
termination_by l => l.length
decreasing_by simp [SEGMENT_LENGTH]; omega

/-- The loop body of `analyzeRouteCoverage`, threading the cache through
the chunks in order and pushing only segments with a positive breakdown
count.  (The loop also fills a local `statusCount` object that the method
never reads into its result; it is omitted.) -/
noncomputable def runChunks (filters : FilterState) :
    Calculator → List (List LatLng) → List RouteSegment × Calculator
  | c, [] => ([], c)
  | c, chunk :: rest =>
    let rc := calculateSegmentCoverage c chunk filters DEFAULT_SEARCH_RADIUS
    let rs := runChunks filters rc.2 rest
    ((if hasPositiveCount rc.1 then rc.1 :: rs.1 else rs.1), rs.2)

/-- The per-chunk result sequence before the zero-coverage drop: the same
loop without the keep test, used to state which segments are kept. -/
noncomputable def chunkResults (filters : FilterState) :
    Calculator → List (List LatLng) → List RouteSegment × Calculator
  | c, [] => ([], c)
  | c, chunk :: rest =>
    let rc := calculateSegmentCoverage c chunk filters DEFAULT_SEARCH_RADIUS
    let rs := chunkResults filters rc.2 rest
    (rc.1 :: rs.1, rs.2)

/-- Model of `analyzeRouteCoverage`: chunk the path, score each chunk with the
default radius, keep positive-count segments, and build the statistics.
`averageCoverage` is `segments.reduce((a, s) => a + s.coverage, 0) /
segments.length`, i.e. `NaN` on zero kept segments. -/
noncomputable def analyzeRouteCoverage (c : Calculator) (path : List LatLng)
    (filters : FilterState) : RouteAnalysis × Calculator :=
  let rs := runChunks filters c (chunkPath path)
  let segments := rs.1
  let stats : CoverageStats :=
    { totalSegments := segments.length
      averageCoverage :=
        if segments.length = 0 then none
        else some ((segments.map RouteSegment.coverage).sum / (segments.length : ℚ))
      coverageDistribution := segments.map fun s =>
        { coverage := s.coverage
          color := getCoverageColor s.coverage
          nearbyPoints := jsSum (s.coverageDetails.map Prod.snd) } }
  ({ segments := segments, stats := stats }, rs.2)

/-- A candidate qualifies when it survives the filter and the distance
test; qualifying candidates are exactly the counted points. -/
def qualifies (segment : List LatLng) (filters : FilterState) (radius : ℚ)
    (ip : IndexedPoint) : Prop :=
  passesFilter filters ip.2 = true ∧ Nearby segment ip.2.lat ip.2.lng radius

open Classical in
/-- The list of qualifying candidates, in candidate order. -/
noncomputable def qualifying (points : List CoveragePoint) (segment : List LatLng)
    (filters : FilterState) (radius : ℚ) : List IndexedPoint :=
  (collectNearby (buildSpatialIndex points) segment radius).filter
    fun ip => decide (qualifies segment filters radius ip)

/-- Cache well-formedness: every entry was stored under the fingerprint
of the segment and filters it was computed from, at some radius.
Constructor-fresh calculators satisfy this vacuously. -/
def CacheWF (c : Calculator) : Prop :=
  ∀ k v, (k, v) ∈ c.cache →
    ∃ s f rad, k = getCacheKey s f ∧ v = computeSegment c.points s f rad

/-- The country early-return does not fire iff the list is empty, the
attribute is absent or empty (JavaScript-falsy), or the attribute is in
the list. -/
theorem countryBlocked_eq_false_iff (f : FilterState) (p : CoveragePoint) :
    countryBlocked f p = false ↔
      (f.countries = [] ∨ p.properties.country = none ∨
        p.properties.country = some "" ∨
        ∃ c ∈ f.countries, p.properties.country = some c) := by
  cases hc : p.properties.country with
  | none => simp [countryBlocked, optTruthy, hc]
  | some c =>
    by_cases hce : c = ""
    · subst hce
      simp [countryBlocked, optTruthy, hc]
    · simp [countryBlocked, optTruthy, hc, hce, List.isEmpty_iff]
      tauto

/-- The phone-type early-return, characterized like the country one. -/
theorem phoneTypeBlocked_eq_false_iff (f : FilterState) (p : CoveragePoint) :
    phoneTypeBlocked f p = false ↔
      (f.phoneTypes = [] ∨ p.properties.phone_type = none ∨
        p.properties.phone_type = some "" ∨
        ∃ t ∈ f.phoneTypes, p.properties.phone_type = some t) := by
  cases ht : p.properties.phone_type with
  | none => simp [phoneTypeBlocked, optTruthy, ht]
  | some t =>
    by_cases hte : t = ""
    · subst hte
      simp [phoneTypeBlocked, optTruthy, ht]
    · simp [phoneTypeBlocked, optTruthy, ht, hte, List.isEmpty_iff]
      tauto

/-- The operator early-return does not fire iff the list is empty or the
operator is in it. -/
theorem operatorBlocked_eq_false_iff (f : FilterState) (p : CoveragePoint) :
    operatorBlocked f p = false ↔
      (f.operators = [] ∨ p.properties.operator ∈ f.operators) := by
  simp [operatorBlocked, List.isEmpty_iff]
  tauto

/-- The status early-return does not fire iff the list is empty or the
status is in it. -/
theorem statusBlocked_eq_false_iff (f : FilterState) (p : CoveragePoint) :
    statusBlocked f p = false ↔
      (f.statuses = [] ∨ p.properties.status ∈ f.statuses) := by
  simp [statusBlocked, List.isEmpty_iff]
  tauto

/-- A point passes the filter iff no early return fires, i.e. iff all
four dimension characterizations hold. -/
theorem passesFilter_eq_true_iff (f : FilterState) (p : CoveragePoint) :
    passesFilter f p = true ↔
      (countryBlocked f p = false ∧ phoneTypeBlocked f p = false ∧
        operatorBlocked f p = false ∧ statusBlocked f p = false) := by
  simp [passesFilter]
  tauto

/-- A concrete point with an absent `country` attribute, used to refute
claim C3. -/
def pointNoCountry : CoveragePoint := ⟨⟨"Op", "City", "5G", none, none⟩, (0, 0)⟩

/-- A filter state allowing only the country `"CA"`. -/
def filtersCA : FilterState := ⟨["CA"], [], [], []⟩

/-- C3 counterexample: the claimed characterization fails at a point whose
optional `country` is absent and a non-empty country list: the code lets
the point pass (the JavaScript truthiness guard skips the check), while
the claim requires membership. -/
theorem claim_C3_counterexample :
    ¬(passesFilter filtersCA pointNoCountry = true ↔
      ((filtersCA.countries = [] ∨
          ∃ c ∈ filtersCA.countries, pointNoCountry.properties.country = some c) ∧
        (filtersCA.phoneTypes = [] ∨
          ∃ t ∈ filtersCA.phoneTypes, pointNoCountry.properties.phone_type = some t) ∧
        (filtersCA.operators = [] ∨
          pointNoCountry.properties.operator ∈ filtersCA.operators) ∧
        (filtersCA.statuses = [] ∨
          pointNoCountry.properties.status ∈ filtersCA.statuses))) := by
  decide

/-- C3 amended: a point passes the filter iff, for each dimension, the
allow-list is empty or the point's attribute belongs to it, EXCEPT that
for the optional `country` and `phone_type` dimensions an absent or
empty-string attribute also passes regardless of the list (the
JavaScript truthiness guard skips the membership test for such values). -/
theorem claim_C3_amended (f : FilterState) (p : CoveragePoint) :
    passesFilter f p = true ↔
      ((f.countries = [] ∨ p.properties.country = none ∨
          p.properties.country = some "" ∨
          ∃ c ∈ f.countries, p.properties.country = some c) ∧
        (f.phoneTypes = [] ∨ p.properties.phone_type = none ∨
          p.properties.phone_type = some "" ∨
          ∃ t ∈ f.phoneTypes, p.properties.phone_type = some t) ∧
        (f.operators = [] ∨ p.properties.operator ∈ f.operators) ∧
        (f.statuses = [] ∨ p.properties.status ∈ f.statuses)) := by
  rw [passesFilter_eq_true_iff, countryBlocked_eq_false_iff,
    phoneTypeBlocked_eq_false_iff, operatorBlocked_eq_false_iff,
    statusBlocked_eq_false_iff]

/-- A cache hit returns the stored segment and leaves the calculator
unchanged. -/
theorem calculateSegmentCoverage_hit (c : Calculator) (segment : List LatLng)
    (filters : FilterState) (radius : ℚ) (r : RouteSegment)
    (h : c.cache.lookup (getCacheKey segment filters) = some r) :
    calculateSegmentCoverage c segment filters radius = (r, c) := by
  unfold calculateSegmentCoverage
  simp [h]

/-- A cache miss computes, stores and returns the fresh segment. -/
theorem calculateSegmentCoverage_miss (c : Calculator) (segment : List LatLng)
    (filters : FilterState) (radius : ℚ)
    (h : c.cache.lookup (getCacheKey segment filters) = none) :
    calculateSegmentCoverage c segment filters radius =
      (computeSegment c.points segment filters radius,
        { c with cache := (getCacheKey segment filters,
            computeSegment c.points segment filters radius) :: c.cache }) := by
  unfold calculateSegmentCoverage
  simp [h]

/-- After any call, the returned segment is retrievable from the updated
cache under the call's fingerprint. -/
theorem lookup_after_call (c : Calculator) (segment : List LatLng)
    (filters : FilterState) (radius : ℚ) :
    ((calculateSegmentCoverage c segment filters radius).2).cache.lookup
        (getCacheKey segment filters) =
      some (calculateSegmentCoverage c segment filters radius).1 := by
  cases h : c.cache.lookup (getCacheKey segment filters) with
  | some r => rw [calculateSegmentCoverage_hit c segment filters radius r h]; exact h
  | none => rw [calculateSegmentCoverage_miss c segment filters radius h]; simp

/-- C7 (confirmed): calling `calculateSegmentCoverage` twice in
succession with identical arguments returns identical results -- the
second call hits the cache (the fingerprint maps to the first call's
value) and returns exactly that value, leaving the calculator unchanged;
moreover on a constructor-fresh calculator the first call's value is the
freshly computed segment. -/
theorem claim_C7 (c : Calculator) (points : List CoveragePoint)
    (segment : List LatLng) (filters : FilterState) (radius : ℚ) :
    ((calculateSegmentCoverage c segment filters radius).2).cache.lookup
        (getCacheKey segment filters) =
      some (calculateSegmentCoverage c segment filters radius).1 ∧
    calculateSegmentCoverage ((calculateSegmentCoverage c segment filters radius).2)
        segment filters radius =
      ((calculateSegmentCoverage c segment filters radius).1,
        (calculateSegmentCoverage c segment filters radius).2) ∧
    (calculateSegmentCoverage (Calculator.init points) segment filters radius).1 =
      computeSegment points segment filters radius := by
  refine ⟨lookup_after_call c segment filters radius, ?_, ?_⟩
  · exact calculateSegmentCoverage_hit _ segment filters radius _
      (lookup_after_call c segment filters radius)
  · rw [calculateSegmentCoverage_miss (Calculator.init points) segment filters radius rfl]
    rfl

/-- Coordinate-wise equal `LatLng` lists are equal. -/
theorem latLng_map_coords_inj {s1 s2 : List LatLng}
    (h : s1.map (fun p => (p.lat, p.lng)) = s2.map (fun p => (p.lat, p.lng))) :
    s1 = s2 := by
  have hinj : Function.Injective (fun p : LatLng => (p.lat, p.lng)) := by
    intro a b hab
    cases a
    cases b
    simpa using hab
  exact List.map_injective_iff.mpr hinj h

/-- C10 (confirmed): cache keying is by value.  Two invocations whose
segments are coordinate-wise equal and whose filter states have equal
lists produce the same fingerprint, and the second invocation returns
the very `RouteSegment` the first one stored (which the updated cache
holds under that shared fingerprint). -/
theorem claim_C10 (c : Calculator) (s1 s2 : List LatLng) (f1 f2 : FilterState)
    (rad1 rad2 : ℚ)
    (hs : s1.map (fun p => (p.lat, p.lng)) = s2.map (fun p => (p.lat, p.lng)))
    (hf : f1.countries = f2.countries ∧ f1.phoneTypes = f2.phoneTypes ∧
      f1.operators = f2.operators ∧ f1.statuses = f2.statuses) :
    getCacheKey s1 f1 = getCacheKey s2 f2 ∧
    ((calculateSegmentCoverage c s1 f1 rad1).2).cache.lookup (getCacheKey s2 f2) =
      some (calculateSegmentCoverage c s1 f1 rad1).1 ∧
    (calculateSegmentCoverage ((calculateSegmentCoverage c s1 f1 rad1).2)
        s2 f2 rad2).1 =
      (calculateSegmentCoverage c s1 f1 rad1).1 := by
  have hseq : s1 = s2 := latLng_map_coords_inj hs
  have hfeq : f1 = f2 := by
    cases f1
    cases f2
    simp only [FilterState.mk.injEq]
    exact ⟨hf.1, hf.2.1, hf.2.2.1, hf.2.2.2⟩
  subst hseq
  subst hfeq
  refine ⟨rfl, lookup_after_call c s1 f1 rad1, ?_⟩
  rw [calculateSegmentCoverage_hit _ s1 f1 rad2 _ (lookup_after_call c s1 f1 rad1)]

/-- C10 witness: a concrete instance with equal coordinates and equal
filter lists. -/
theorem claim_C10_witness :
    (([⟨0, 0⟩] : List LatLng).map (fun p => (p.lat, p.lng)) =
        ([⟨0, 0⟩] : List LatLng).map (fun p => (p.lat, p.lng))) ∧
    (calculateSegmentCoverage
        ((calculateSegmentCoverage (Calculator.init []) [⟨0, 0⟩] ⟨[], [], [], []⟩ 1).2)
        [⟨0, 0⟩] ⟨[], [], [], []⟩ 1).1 =
      (calculateSegmentCoverage (Calculator.init []) [⟨0, 0⟩] ⟨[], [], [], []⟩ 1).1 :=
  ⟨rfl, (claim_C10 (Calculator.init []) [⟨0, 0⟩] [⟨0, 0⟩] ⟨[], [], [], []⟩ ⟨[], [], [], []⟩
    1 1 rfl ⟨rfl, rfl, rfl, rfl⟩).2.2⟩

/-- The spatial index bucket of a key holds exactly the indexed points
whose own grid key is that key, in array order. -/
theorem buildSpatialIndex_apply (points : List CoveragePoint) (k : GridKey) :
    buildSpatialIndex points k =
      points.enum.filter (fun ip => decide (k = getGridKey ip.2.lat ip.2.lng)) := by
  have hgen : ∀ (l : List IndexedPoint) (f : GridKey → List IndexedPoint),
      (l.foldl
        (fun index ip key =>
          if key = getGridKey ip.2.lat ip.2.lng then index key ++ [ip] else index key)
        f) k =
      f k ++ l.filter (fun ip => decide (k = getGridKey ip.2.lat ip.2.lng)) := by
    intro l
    induction l with
    | nil => intro f; simp
    | cons a t ih =>
      intro f
      simp only [List.foldl_cons, List.filter_cons]
      rw [ih]
      by_cases h : k = getGridKey a.2.lat a.2.lng
      · simp [h]
      · simp [h]
  simpa [buildSpatialIndex] using hgen points.enum (fun _ => [])

/-- The middle member (outer offset 0, inner offset 0, position 4 of 9)
of the query-time neighborhood is the build-time grid key itself. -/
theorem getNearbyGridKeys_center (lat lng radius : ℚ) :
    (getNearbyGridKeys lat lng radius).get? 4 = some (getGridKey lat lng) := by
  simp [getNearbyGridKeys, getGridKey, List.flatMap]

/-- Membership in the candidate set is preserved by adding a point. -/
theorem mem_addCandidate_of_mem {acc : List IndexedPoint} {x y : IndexedPoint}
    (h : x ∈ acc) : x ∈ addCandidate acc y := by
  unfold addCandidate
  split
  · exact h
  · exact List.mem_append_left _ h

/-- Membership in the candidate set is preserved by adding a bucket. -/
theorem mem_foldl_addCandidate_of_mem {x : IndexedPoint} :
    ∀ (l acc : List IndexedPoint), x ∈ acc → x ∈ l.foldl addCandidate acc
  | [], _, h => h
  | _ :: t, _, h => mem_foldl_addCandidate_of_mem t _ (mem_addCandidate_of_mem h)

/-- Everything in the candidate set after adding a bucket was already a
candidate or sits in the bucket. -/
theorem mem_of_mem_foldl_addCandidate {x : IndexedPoint} :
    ∀ (l acc : List IndexedPoint), x ∈ l.foldl addCandidate acc → x ∈ acc ∨ x ∈ l := by
  intro l
  induction l with
  | nil => intro acc h; exact Or.inl h
  | cons a t ih =>
    intro acc h
    rcases ih (addCandidate acc a) h with h' | h'
    · unfold addCandidate at h'
      split at h'
      · exact Or.inl h'
      · rcases List.mem_append.mp h' with h'' | h''
        · exact Or.inl h''
        · have hxa : x = a := List.mem_singleton.mp h''
          exact Or.inr (hxa ▸ List.mem_cons_self a t)
    · exact Or.inr (List.mem_cons_of_mem a h')

/-- A point's index appears among the candidate indices after the point
is added. -/
theorem fst_mem_addCandidate_self (acc : List IndexedPoint) (y : IndexedPoint) :
    y.1 ∈ (addCandidate acc y).map Prod.fst := by
  unfold addCandidate
  split
  · assumption
  · simp

/-- Candidate indices are preserved by adding a point. -/
theorem fst_mem_addCandidate_of_mem {acc : List IndexedPoint} {y : IndexedPoint}
    {i : ℕ} (h : i ∈ acc.map Prod.fst) : i ∈ (addCandidate acc y).map Prod.fst := by
  unfold addCandidate
  split
  · exact h
  · simp only [List.map_append, List.mem_append]
    exact Or.inl h

/-- Candidate indices are preserved by adding a bucket. -/
theorem fst_mem_foldl_addCandidate_of_mem {i : ℕ} :
    ∀ (l acc : List IndexedPoint), i ∈ acc.map Prod.fst →
      i ∈ (l.foldl addCandidate acc).map Prod.fst
  | [], _, h => h
  | _ :: t, _, h => fst_mem_foldl_addCandidate_of_mem t _ (fst_mem_addCandidate_of_mem h)

/-- Adding a bucket makes every bucket member's index a candidate index. -/
theorem fst_mem_foldl_addCandidate_of_mem_bucket {x : IndexedPoint} :
    ∀ (l acc : List IndexedPoint), x ∈ l →
      x.1 ∈ (l.foldl addCandidate acc).map Prod.fst := by
  intro l
  induction l with
  | nil => intro acc h; cases h
  | cons a t ih =>
    intro acc h
    rcases List.mem_cons.mp h with h' | h'
    · subst h'
      exact fst_mem_foldl_addCandidate_of_mem t _ (fst_mem_addCandidate_self acc x)
    · exact ih (addCandidate acc a) h'

/-- Candidate membership is preserved by the key loop. -/
theorem mem_keyFold_of_mem {index : GridKey → List IndexedPoint} {x : IndexedPoint} :
    ∀ (keys : List GridKey) (acc : List IndexedPoint), x ∈ acc →
      x ∈ keys.foldl (fun acc2 key => (index key).foldl addCandidate acc2) acc
  | [], _, h => h
  | _ :: t, _, h => mem_keyFold_of_mem t _ (mem_foldl_addCandidate_of_mem _ _ h)

/-- Candidate indices are preserved by the key loop. -/
theorem fst_mem_keyFold_of_mem {index : GridKey → List IndexedPoint} {i : ℕ} :
    ∀ (keys : List GridKey) (acc : List IndexedPoint), i ∈ acc.map Prod.fst →
      i ∈ (keys.foldl (fun acc2 key => (index key).foldl addCandidate acc2) acc).map
        Prod.fst
  | [], _, h => h
  | _ :: t, _, h => fst_mem_keyFold_of_mem t _ (fst_mem_foldl_addCandidate_of_mem _ _ h)

/-- The key loop makes every member of every queried bucket a candidate
index. -/
theorem fst_mem_keyFold_of_mem_bucket {index : GridKey → List IndexedPoint}
    {x : IndexedPoint} {k : GridKey} :
    ∀ (keys : List GridKey) (acc : List IndexedPoint), k ∈ keys → x ∈ index k →
      x.1 ∈ (keys.foldl (fun acc2 key => (index key).foldl addCandidate acc2) acc).map
        Prod.fst := by
  intro keys
  induction keys with
  | nil => intro acc hk; cases hk
  | cons a t ih =>
    intro acc hk hx
    rcases List.mem_cons.mp hk with h' | h'
    · subst h'
      exact fst_mem_keyFold_of_mem t _ (fst_mem_foldl_addCandidate_of_mem_bucket _ _ hx)
    · exact ih _ h' hx

/-- Everything the key loop accumulates was a candidate already or lies
in one of the queried buckets. -/
theorem mem_of_mem_keyFold {index : GridKey → List IndexedPoint} {y : IndexedPoint} :
    ∀ (keys : List GridKey) (acc : List IndexedPoint),
      y ∈ keys.foldl (fun acc2 key => (index key).foldl addCandidate acc2) acc →
      y ∈ acc ∨ ∃ k ∈ keys, y ∈ index k := by
  intro keys
  induction keys with
  | nil => intro acc h; exact Or.inl h
  | cons a t ih =>
    intro acc h
    rcases ih _ h with h' | h'
    · rcases mem_of_mem_foldl_addCandidate _ _ h' with h'' | h''
      · exact Or.inl h''
      · exact Or.inr ⟨a, List.mem_cons_self a t, h''⟩
    · rcases h' with ⟨k, hk, hy⟩
      exact Or.inr ⟨k, List.mem_cons_of_mem a hk, hy⟩

/-- Candidate indices are preserved by the segment loop. -/
theorem fst_mem_segFold_of_mem {index : GridKey → List IndexedPoint} {radius : ℚ}
    {i : ℕ} :
    ∀ (segment : List LatLng) (acc : List IndexedPoint), i ∈ acc.map Prod.fst →
      i ∈ (segment.foldl
        (fun acc p =>
          (getNearbyGridKeys p.lat p.lng radius).foldl
            (fun acc2 key => (index key).foldl addCandidate acc2) acc)
        acc).map Prod.fst
  | [], _, h => h
  | _ :: t, _, h => fst_mem_segFold_of_mem t _ (fst_mem_keyFold_of_mem _ _ h)

/-- A bucket member whose bucket key is queried for some segment point
has its index among the collected candidates. -/
theorem fst_mem_collectNearby {index : GridKey → List IndexedPoint} {radius : ℚ}
    {x : IndexedPoint} {k : GridKey} {q : LatLng} {segment : List LatLng}
    (hq : q ∈ segment) (hk : k ∈ getNearbyGridKeys q.lat q.lng radius)
    (hx : x ∈ index k) :
    x.1 ∈ (collectNearby index segment radius).map Prod.fst := by
  unfold collectNearby
  have hgen : ∀ (seg : List LatLng) (acc : List IndexedPoint), q ∈ seg →
      x.1 ∈ (seg.foldl
        (fun acc p =>
          (getNearbyGridKeys p.lat p.lng radius).foldl
            (fun acc2 key => (index key).foldl addCandidate acc2) acc)
        acc).map Prod.fst := by
    intro seg
    induction seg with
    | nil => intro acc h; cases h
    | cons a t ih =>
      intro acc h
      rcases List.mem_cons.mp h with h' | h'
      · subst h'
        exact fst_mem_segFold_of_mem t _ (fst_mem_keyFold_of_mem_bucket _ _ hk hx)
      · exact ih _ h'
  exact hgen segment [] hq

/-- Every collected candidate lies in some queried bucket. -/
theorem mem_bucket_of_mem_collectNearby {index : GridKey → List IndexedPoint}
    {radius : ℚ} {y : IndexedPoint} {segment : List LatLng}
    (h : y ∈ collectNearby index segment radius) : ∃ k, y ∈ index k := by
  unfold collectNearby at h
  have hgen : ∀ (seg : List LatLng) (acc : List IndexedPoint),
      y ∈ seg.foldl
        (fun acc p =>
          (getNearbyGridKeys p.lat p.lng radius).foldl
            (fun acc2 key => (index key).foldl addCandidate acc2) acc)
        acc →
      y ∈ acc ∨ ∃ k, y ∈ index k := by
    intro seg
    induction seg with
    | nil => intro acc h'; exact Or.inl h'
    | cons a t ih =>
      intro acc h'
      rcases ih _ h' with h'' | h''
      · rcases mem_of_mem_keyFold _ _ h'' with h3 | h3
        · exact Or.inl h3
        · rcases h3 with ⟨k, _, hy⟩
          exact Or.inr ⟨k, hy⟩
      · exact Or.inr h''
  rcases hgen segment [] h with h' | h'
  · cases h'
  · exact h'

/-- Every candidate collected from the built index is an indexed element
of the point array. -/
theorem mem_enum_of_mem_collectNearby {points : List CoveragePoint} {radius : ℚ}
    {y : IndexedPoint} {segment : List LatLng}
    (h : y ∈ collectNearby (buildSpatialIndex points) segment radius) :
    y ∈ points.enum := by
  rcases mem_bucket_of_mem_collectNearby h with ⟨k, hy⟩
  rw [buildSpatialIndex_apply] at hy
  exact List.mem_of_mem_filter hy

/-- C6 (confirmed): the query-time center key (offsets `i = 0, j = 0`,
position 4 of the 9 neighborhood keys) equals the build-time bucket key,
and consequently every indexed point is among the candidates collected
by a query centered on its own coordinates. -/
theorem claim_C6 (points : List CoveragePoint) (radius : ℚ) (i : ℕ)
    (p : CoveragePoint) (h : (i, p) ∈ points.enum) :
    (getNearbyGridKeys p.lat p.lng radius).get? 4 = some (getGridKey p.lat p.lng) ∧
    (i, p) ∈ collectNearby (buildSpatialIndex points) [⟨p.lat, p.lng⟩] radius := by
  refine ⟨getNearbyGridKeys_center p.lat p.lng radius, ?_⟩
  have hkmem : getGridKey p.lat p.lng ∈ getNearbyGridKeys p.lat p.lng radius :=
    List.get?_mem (getNearbyGridKeys_center p.lat p.lng radius)
  have hbucket : ((i, p) : IndexedPoint) ∈
      buildSpatialIndex points (getGridKey p.lat p.lng) := by
    rw [buildSpatialIndex_apply]
    exact List.mem_filter.mpr ⟨h, by simp [CoveragePoint.lat, CoveragePoint.lng]⟩
  have hq : (⟨p.lat, p.lng⟩ : LatLng) ∈ ([⟨p.lat, p.lng⟩] : List LatLng) :=
    List.mem_singleton.mpr rfl
  have hkeys : getGridKey p.lat p.lng ∈
      getNearbyGridKeys (⟨p.lat, p.lng⟩ : LatLng).lat (⟨p.lat, p.lng⟩ : LatLng).lng
        radius := hkmem
  have hfst : (i, p).1 ∈
      (collectNearby (buildSpatialIndex points) [⟨p.lat, p.lng⟩] radius).map
        Prod.fst :=
    fst_mem_collectNearby hq hkeys hbucket
  rcases List.mem_map.mp hfst with ⟨y, hy, hyfst⟩
  have hyenum : y ∈ points.enum := mem_enum_of_mem_collectNearby hy
  have h1 : points.get? y.1 = some y.2 := by
    have := List.mk_mem_enum_iff_getElem?.mp (show (y.1, y.2) ∈ points.enum by
      simpa using hyenum)
    simpa [List.get?_eq_getElem?] using this
  have h2 : points.get? i = some p := by
    have := List.mk_mem_enum_iff_getElem?.mp h
    simpa [List.get?_eq_getElem?] using this
  have hyi : y.1 = i := hyfst
  have : y.2 = p := by
    rw [hyi] at h1
    rw [h1] at h2
    exact Option.some.inj h2
  have hyeq : y = (i, p) := Prod.ext hyi this
  rwa [hyeq] at hy

/-- C6 witness: a one-point array, queried at the point's own
coordinates. -/
theorem claim_C6_witness :
    ((0, pointNoCountry) ∈ ([pointNoCountry] : List CoveragePoint).enum) ∧
    (0, pointNoCountry) ∈ collectNearby (buildSpatialIndex [pointNoCountry])
      [⟨pointNoCountry.lat, pointNoCountry.lng⟩] DEFAULT_SEARCH_RADIUS :=
  ⟨by decide,
    (claim_C6 [pointNoCountry] DEFAULT_SEARCH_RADIUS 0 pointNoCountry (by decide)).2⟩

open Classical in
/-- The loop body counts a candidate exactly when it qualifies. -/
theorem processPoint_eq (segment : List LatLng) (filters : FilterState)
    (radius : ℚ) (st : SegState) (ip : IndexedPoint) :
    processPoint segment filters radius st ip =
      if qualifies segment filters radius ip then
        { coverageDetails := bumpStatus st.coverageDetails ip.2.properties.status
          totalPoints := st.totalPoints + 1
          coverageScore := st.coverageScore + weightOf ip.2.properties.status }
      else st := by
  unfold processPoint qualifies
  by_cases h1 : passesFilter filters ip.2 = true
  · by_cases h2 : Nearby segment ip.2.lat ip.2.lng radius
    · simp [h1, h2]
    · simp [h1, h2]
  · simp [h1]

open Classical in
/-- The candidate loop's final count is the number of qualifying
candidates, and its final score is the sum of their weights. -/
theorem foldl_processPoint_spec (segment : List LatLng) (filters : FilterState)
    (radius : ℚ) :
    ∀ (l : List IndexedPoint) (st : SegState),
      ((l.foldl (processPoint segment filters radius) st).totalPoints =
        st.totalPoints +
          (l.filter fun ip => decide (qualifies segment filters radius ip)).length) ∧
      ((l.foldl (processPoint segment filters radius) st).coverageScore =
        st.coverageScore +
          ((l.filter fun ip => decide (qualifies segment filters radius ip)).map
            (fun ip => weightOf ip.2.properties.status)).sum) := by
  intro l
  induction l with
  | nil => intro st; simp
  | cons a t ih =>
    intro st
    rw [List.foldl_cons, List.filter_cons, processPoint_eq]
    by_cases h : qualifies segment filters radius a
    · have hd : decide (qualifies segment filters radius a) = true := decide_eq_true h
      rw [if_pos h]
      simp only [hd, if_true]
      constructor
      · rw [(ih _).1]
        simp only [List.length_cons]
        omega
      · rw [(ih _).2]
        simp only [List.map_cons, List.sum_cons]
        ring
    · have hd : decide (qualifies segment filters radius a) = false :=
        decide_eq_false h
      rw [if_neg h]
      simp only [hd, Bool.false_eq_true, if_false]
      exact ih st

/-- Every weight the loop can add is at least `0.1`. -/
theorem weightOf_ge (s : String) : (1/10 : ℚ) ≤ weightOf s := by
  unfold weightOf COVERAGE_WEIGHTS
  split
  · norm_num
  · split
    · norm_num
    · split
      · norm_num
      · split <;> norm_num

/-- Every weight the loop can add is at most `1`. -/
theorem weightOf_le_one (s : String) : weightOf s ≤ 1 := by
  unfold weightOf COVERAGE_WEIGHTS
  split
  · norm_num
  · split
    · norm_num
    · split
      · norm_num
      · split <;> norm_num

open Classical in
/-- The freshly computed coverage is the mean weight of the qualifying
candidates (`0` when none qualify). -/
theorem computeSegment_coverage_spec (points : List CoveragePoint)
    (segment : List LatLng) (filters : FilterState) (radius : ℚ) :
    (computeSegment points segment filters radius).coverage =
      (if 0 < (qualifying points segment filters radius).length then
        ((qualifying points segment filters radius).map
          (fun ip => weightOf ip.2.properties.status)).sum /
          ((qualifying points segment filters radius).length : ℚ)
      else 0) := by
  unfold computeSegment qualifying
  rcases foldl_processPoint_spec segment filters radius
      (collectNearby (buildSpatialIndex points) segment radius) initialSegState with
    ⟨ht, hs⟩
  simp only []
  rw [ht, hs]
  simp [initialSegState]

open Classical in
/-- C5 (confirmed): on a constructor-fresh calculator, the returned
coverage score is the sum of the qualifying points' weights divided by
their count (the mean weight), is `0` when no point qualifies, and always
lies in `[0, 1]`. -/
theorem claim_C5 (points : List CoveragePoint) (segment : List LatLng)
    (filters : FilterState) (radius : ℚ) :
    ((calculateSegmentCoverage (Calculator.init points) segment filters radius).1).coverage =
      (if 0 < (qualifying points segment filters radius).length then
        ((qualifying points segment filters radius).map
          (fun ip => weightOf ip.2.properties.status)).sum /
          ((qualifying points segment filters radius).length : ℚ)
      else 0) ∧
    0 ≤ ((calculateSegmentCoverage (Calculator.init points) segment filters radius).1).coverage ∧
    ((calculateSegmentCoverage (Calculator.init points) segment filters radius).1).coverage ≤ 1 := by
  have hfresh : (calculateSegmentCoverage (Calculator.init points) segment filters radius).1 =
      computeSegment points segment filters radius := by
    rw [calculateSegmentCoverage_miss (Calculator.init points) segment filters radius rfl]
    rfl
  rw [hfresh, computeSegment_coverage_spec]
  refine ⟨rfl, ?_, ?_⟩
  · split
    · apply div_nonneg
      · apply List.sum_nonneg
        intro x hx
        rcases List.mem_map.mp hx with ⟨ip, _, hip⟩
        subst hip
        exact le_trans (by norm_num) (weightOf_ge ip.2.properties.status)
      · positivity
    · exact le_refl 0
  · split
    · rename_i hpos
      rw [div_le_one (by exact_mod_cast hpos)]
      have hble := List.sum_le_card_nsmul
        ((qualifying points segment filters radius).map
          (fun ip => weightOf ip.2.properties.status)) 1 ?_
      · simpa using hble
      · intro x hx
        rcases List.mem_map.mp hx with ⟨ip, _, hip⟩
        subst hip
        exact weightOf_le_one ip.2.properties.status
    · norm_num

/-- The haversine distance from a coordinate to itself is zero. -/
theorem haversineDistance_self (lat lng : ℝ) :
    haversineDistance lat lng lat lng = 0 := by
  unfold haversineDistance atan2 toRad
  simp [Complex.arg_one]

/-- On the equator, the haversine distance across `d` degrees of
longitude (`0 < d <= 180`) is exactly `6371 * d * pi / 180` kilometers. -/
theorem haversineDistance_equator (d : ℝ) (h0 : 0 < d) (h1 : d ≤ 180) :
    haversineDistance 0 d 0 0 = 6371 * (d * (Real.pi / 180)) := by
  have hpi : (0 : ℝ) < Real.pi := Real.pi_pos
  set θ : ℝ := (0 - d) * (Real.pi / 180) / 2 with hθ
  have hθneg : θ = -(d * (Real.pi / 180) / 2) := by rw [hθ]; ring
  have hval : 0 < d * (Real.pi / 180) / 2 := by positivity
  have hle : d * (Real.pi / 180) / 2 ≤ Real.pi / 2 := by
    have : d * Real.pi ≤ 180 * Real.pi :=
      mul_le_mul_of_nonneg_right h1 (le_of_lt hpi)
    nlinarith
  have hsin : Real.sin θ * Real.sin θ =
      Real.sin (d * (Real.pi / 180) / 2) * Real.sin (d * (Real.pi / 180) / 2) := by
    rw [hθneg, Real.sin_neg]
    ring
  unfold haversineDistance atan2 toRad
  simp only [sub_self, zero_mul, zero_div, Real.sin_zero, Real.cos_zero, mul_zero,
    one_mul, zero_add, mul_one]
  rw [show (0 - d) * (Real.pi / 180) / 2 = θ from rfl, hsin]
  set φ : ℝ := d * (Real.pi / 180) / 2 with hφ
  have hφnonneg : 0 ≤ φ := le_of_lt hval
  have hφlepi : φ ≤ Real.pi := le_trans hle (by linarith)
  have hsinnonneg : 0 ≤ Real.sin φ := Real.sin_nonneg_of_nonneg_of_le_pi hφnonneg hφlepi
  have hcosnonneg : 0 ≤ Real.cos φ :=
    Real.cos_nonneg_of_mem_Icc ⟨by linarith, hle⟩
  have hsqrt1 : Real.sqrt (Real.sin φ * Real.sin φ) = Real.sin φ :=
    Real.sqrt_mul_self hsinnonneg
  have hone : 1 - Real.sin φ * Real.sin φ = Real.cos φ * Real.cos φ := by
    have := Real.sin_sq_add_cos_sq φ
    nlinarith
  have hsqrt2 : Real.sqrt (1 - Real.sin φ * Real.sin φ) = Real.cos φ := by
    rw [hone]
    exact Real.sqrt_mul_self hcosnonneg
  rw [hsqrt1, hsqrt2]
  have harg : Complex.arg ((Real.cos φ : ℂ) + (Real.sin φ : ℂ) * Complex.I) = φ := by
    rw [Complex.ofReal_cos, Complex.ofReal_sin]
    exact Complex.arg_cos_add_sin_mul_I ⟨by linarith, hφlepi⟩
  rw [harg]
  rw [hφ]
  ring

/-- A candidate `0.005` degrees of longitude away on the equator is
`6371 * 0.005 * pi / 180 ≈ 0.556` kilometers away, which exceeds the
default radius constant `0.01` that the code compares kilometers
against. -/
theorem haversine_equator_005_gt_radius :
    (1/100 : ℝ) < haversineDistance 0 (1/200 : ℝ) 0 0 := by
  rw [haversineDistance_equator (1/200 : ℝ) (by norm_num) (by norm_num)]
  have hpi := Real.pi_gt_three
  nlinarith

/-- The center key is among the queried keys. -/
theorem center_mem_getNearbyGridKeys (lat lng radius : ℚ) :
    getGridKey lat lng ∈ getNearbyGridKeys lat lng radius :=
  List.get?_mem (getNearbyGridKeys_center lat lng radius)

/-- Collecting candidates from a one-point index yields exactly that
point whenever its bucket key is queried for some segment point. -/
theorem collectNearby_single_point (P : CoveragePoint) (q : LatLng) (radius : ℚ)
    (hk : getGridKey P.lat P.lng ∈ getNearbyGridKeys q.lat q.lng radius) :
    collectNearby (buildSpatialIndex [P]) [q] radius = [(0, P)] := by
  have hbucket : ∀ k : GridKey, buildSpatialIndex [P] k =
      if k = getGridKey P.lat P.lng then [(0, P)] else [] := by
    intro k
    rw [buildSpatialIndex_apply]
    by_cases h : k = getGridKey P.lat P.lng
    · simp [List.enum, h]
    · simp [List.enum, h]
  have hgen : ∀ (l : List GridKey) (acc : List IndexedPoint),
      l.foldl (fun acc2 key => (buildSpatialIndex [P] key).foldl addCandidate acc2) acc =
        if getGridKey P.lat P.lng ∈ l ∧ ¬(0 ∈ acc.map Prod.fst) then acc ++ [(0, P)]
        else acc := by
    intro l
    induction l with
    | nil => intro acc; simp
    | cons k t ih =>
      intro acc
      simp only [List.foldl_cons]
      rw [hbucket k]
      by_cases hkp : k = getGridKey P.lat P.lng
      · subst hkp
        rw [if_pos rfl]
        simp only [List.foldl_cons, List.foldl_nil]
        have haddc : addCandidate acc (0, P) =
            if (0 : ℕ) ∈ acc.map Prod.fst then acc else acc ++ [(0, P)] := rfl
        rw [haddc]
        by_cases hacc : (0 : ℕ) ∈ acc.map Prod.fst
        · rw [if_pos hacc, ih acc]
          by_cases hmem : getGridKey P.lat P.lng ∈ t <;> simp [hmem, hacc]
        · rw [if_neg hacc, ih (acc ++ [(0, P)])]
          have h0 : (0 : ℕ) ∈ (acc ++ [(0, P)]).map Prod.fst := by simp
          simp [h0, hacc]
      · rw [if_neg hkp]
        simp only [List.foldl_nil]
        rw [ih acc]
        have hkp' : ¬(getGridKey P.lat P.lng = k) := fun h => hkp h.symm
        have hiff : (getGridKey P.lat P.lng ∈ k :: t) ↔ getGridKey P.lat P.lng ∈ t := by
          simp [List.mem_cons, hkp']
        rw [if_congr (and_congr_left fun _ => hiff) rfl rfl]
  unfold collectNearby
  simp only [List.foldl_cons, List.foldl_nil]
  rw [hgen]
  simp [hk]

/-- The all-empty filter state (pass-through). -/
def emptyFilters : FilterState := ⟨[], [], [], []⟩

/-- A one-point chunk at the origin (equator). -/
def chunkOrigin : List LatLng := [⟨0, 0⟩]

/-- A 5G observation `0.005` degrees of longitude east of the origin
(GeoJSON order: `[lng, lat]`). -/
def pointFar : CoveragePoint := ⟨⟨"Op", "City", "5G", none, none⟩, (1/200, 0)⟩

/-- An observation at the origin whose status `"LTE"` is outside the
weight table. -/
def pointLTE : CoveragePoint := ⟨⟨"Op", "City", "LTE", none, none⟩, (0, 0)⟩

/-- A 5G observation at the origin with country `"CA"`. -/
def pointCA : CoveragePoint := ⟨⟨"Op", "City", "5G", some "CA", none⟩, (0, 0)⟩

/-- A point at the chunk coordinate is nearby (distance zero). -/
theorem nearby_origin (radius : ℚ) (h : 0 ≤ radius) :
    Nearby chunkOrigin 0 0 radius := by
  refine ⟨⟨0, 0⟩, List.mem_singleton.mpr rfl, ?_⟩
  show haversineDistance ((0 : ℚ) : ℝ) ((0 : ℚ) : ℝ)
      ((LatLng.mk 0 0).lat : ℝ) ((LatLng.mk 0 0).lng : ℝ) ≤ ((radius : ℚ) : ℝ)
  have h0 : ((0 : ℚ) : ℝ) = (0 : ℝ) := by norm_num
  simp only [h0]
  rw [haversineDistance_self]
  exact_mod_cast h

/-- The far point is not nearby under the default radius: its haversine
distance (≈ 0.556 kilometers) exceeds the constant `0.01`. -/
theorem not_nearby_pointFar :
    ¬Nearby chunkOrigin pointFar.lat pointFar.lng DEFAULT_SEARCH_RADIUS := by
  rintro ⟨p, hp, hle⟩
  have hpeq : p = LatLng.mk 0 0 := List.mem_singleton.mp hp
  subst hpeq
  have hcast :
      haversineDistance ((pointFar.lat : ℚ) : ℝ) ((pointFar.lng : ℚ) : ℝ)
          (((LatLng.mk 0 0).lat : ℚ) : ℝ) (((LatLng.mk 0 0).lng : ℚ) : ℝ) =
        haversineDistance 0 (1/200 : ℝ) 0 0 := by
    norm_num [pointFar, CoveragePoint.lat, CoveragePoint.lng]
  rw [hcast] at hle
  have hgt := haversine_equator_005_gt_radius
  have hrad : ((DEFAULT_SEARCH_RADIUS : ℚ) : ℝ) = (1/100 : ℝ) := by
    norm_num [DEFAULT_SEARCH_RADIUS]
  rw [hrad] at hle
  linarith

/-- The far point's bucket key coincides with the chunk point's cell key. -/
theorem pointFar_gridKey :
    getGridKey pointFar.lat pointFar.lng =
      getGridKey (LatLng.mk 0 0).lat (LatLng.mk 0 0).lng := by
  show getGridKey 0 (1/200) = getGridKey 0 0
  unfold getGridKey gridSize
  norm_num

/-- C1 (code bug): with a single 5G observation `0.005` degrees east of
the one-point chunk at the origin, empty filters and the default radius,
the returned breakdown is all zero and the score is `0` -- although the
observation's haversine distance is ≈ 0.556 km, well inside the claimed
≈ 1.1 km default radius.  The code compares the kilometer-valued
distance against the constant `0.01` (documented in-source as
"approximately 1km in degrees"), so the effective default radius is
10 meters, not ≈ 1.1 km. -/
theorem claim_C1 :
    ((calculateSegmentCoverage (Calculator.init [pointFar]) chunkOrigin emptyFilters
        DEFAULT_SEARCH_RADIUS).1).coverage = 0 ∧
    ((calculateSegmentCoverage (Calculator.init [pointFar]) chunkOrigin emptyFilters
        DEFAULT_SEARCH_RADIUS).1).coverageDetails = initialCoverageDetails ∧
    (1/100 : ℝ) < haversineDistance 0 (1/200 : ℝ) 0 0 ∧
    haversineDistance 0 (1/200 : ℝ) 0 0 < 111/100 := by
  have hfresh : (calculateSegmentCoverage (Calculator.init [pointFar]) chunkOrigin
      emptyFilters DEFAULT_SEARCH_RADIUS).1 =
      computeSegment [pointFar] chunkOrigin emptyFilters DEFAULT_SEARCH_RADIUS := by
    rw [calculateSegmentCoverage_miss (Calculator.init [pointFar]) chunkOrigin
      emptyFilters DEFAULT_SEARCH_RADIUS rfl]
    rfl
  have hcand : collectNearby (buildSpatialIndex [pointFar]) chunkOrigin
      DEFAULT_SEARCH_RADIUS = [(0, pointFar)] := by
    unfold chunkOrigin
    exact collectNearby_single_point pointFar (LatLng.mk 0 0) DEFAULT_SEARCH_RADIUS
      (pointFar_gridKey ▸ center_mem_getNearbyGridKeys _ _ _)
  have hnq : ¬qualifies chunkOrigin emptyFilters DEFAULT_SEARCH_RADIUS (0, pointFar) := by
    rintro ⟨-, hnear⟩
    exact not_nearby_pointFar hnear
  have hst : computeSegment [pointFar] chunkOrigin emptyFilters DEFAULT_SEARCH_RADIUS =
      { path := chunkOrigin, coverage := 0, coverageDetails := initialCoverageDetails } := by
    unfold computeSegment
    rw [hcand]
    simp only [List.foldl_cons, List.foldl_nil, processPoint_eq]
    rw [if_neg hnq]
    simp [initialSegState]
  refine ⟨?_, ?_, haversine_equator_005_gt_radius, ?_⟩
  · rw [hfresh, hst]
  · rw [hfresh, hst]
  · rw [haversineDistance_equator (1/200 : ℝ) (by norm_num) (by norm_num)]
    have hpi := Real.pi_lt_four
    nlinarith

/-- C2 (code bug): a passing point whose status `"LTE"` is none of
5G/4G/3G does contribute the `other` weight `0.1` to the score (the
returned coverage is `0.1`), but it does not increment the `other`
count: `coverageDetails["LTE"]++` creates a new fifth key `"LTE"` with
value `NaN` (modelled `none`) and leaves `other` at `0`, so the
breakdown's keys do not remain the four classes. -/
theorem claim_C2 :
    ((calculateSegmentCoverage (Calculator.init [pointLTE]) chunkOrigin emptyFilters
        DEFAULT_SEARCH_RADIUS).1).coverageDetails =
      [("5G", some 0), ("4G", some 0), ("3G", some 0), ("other", some 0),
        ("LTE", none)] ∧
    ((calculateSegmentCoverage (Calculator.init [pointLTE]) chunkOrigin emptyFilters
        DEFAULT_SEARCH_RADIUS).1).coverage = 1/10 := by
  have hfresh : (calculateSegmentCoverage (Calculator.init [pointLTE]) chunkOrigin
      emptyFilters DEFAULT_SEARCH_RADIUS).1 =
      computeSegment [pointLTE] chunkOrigin emptyFilters DEFAULT_SEARCH_RADIUS := by
    rw [calculateSegmentCoverage_miss (Calculator.init [pointLTE]) chunkOrigin
      emptyFilters DEFAULT_SEARCH_RADIUS rfl]
    rfl
  have hcand : collectNearby (buildSpatialIndex [pointLTE]) chunkOrigin
      DEFAULT_SEARCH_RADIUS = [(0, pointLTE)] := by
    unfold chunkOrigin
    exact collectNearby_single_point pointLTE (LatLng.mk 0 0) DEFAULT_SEARCH_RADIUS
      (center_mem_getNearbyGridKeys _ _ _)
  have hq : qualifies chunkOrigin emptyFilters DEFAULT_SEARCH_RADIUS (0, pointLTE) := by
    refine ⟨by decide, ?_⟩
    exact nearby_origin DEFAULT_SEARCH_RADIUS (by norm_num [DEFAULT_SEARCH_RADIUS])
  have hbump : bumpStatus initialCoverageDetails pointLTE.properties.status =
      [("5G", some 0), ("4G", some 0), ("3G", some 0), ("other", some 0),
        ("LTE", none)] := by
    show bumpStatus initialCoverageDetails "LTE" = _
    unfold bumpStatus initialCoverageDetails
    rw [if_neg (by decide)]
    rfl
  have hst : computeSegment [pointLTE] chunkOrigin emptyFilters DEFAULT_SEARCH_RADIUS =
      { path := chunkOrigin, coverage := 1/10,
        coverageDetails :=
          [("5G", some 0), ("4G", some 0), ("3G", some 0), ("other", some 0),
            ("LTE", none)] } := by
    unfold computeSegment
    rw [hcand]
    simp only [List.foldl_cons, List.foldl_nil, processPoint_eq]
    rw [if_pos hq]
    simp only [initialSegState]
    rw [hbump]
    have hw : weightOf pointLTE.properties.status = 1/10 := by
      show weightOf "LTE" = 1/10
      unfold weightOf COVERAGE_WEIGHTS
      rw [if_neg (by decide), if_neg (by decide), if_neg (by decide),
        if_neg (by decide)]
      rfl
    rw [hw]
    norm_num
  exact ⟨by rw [hfresh, hst], by rw [hfresh, hst]⟩

/-- One widening step on a filter state: exactly one of the four lists
gets one value appended, the others are unchanged, and (the amended
claim's proviso) the widened list was non-empty. -/
def WidensOne (f f' : FilterState) : Prop :=
  (f.countries ≠ [] ∧ (∃ v, f'.countries = f.countries ++ [v]) ∧
    f'.phoneTypes = f.phoneTypes ∧ f'.operators = f.operators ∧
    f'.statuses = f.statuses) ∨
  (f.phoneTypes ≠ [] ∧ (∃ v, f'.phoneTypes = f.phoneTypes ++ [v]) ∧
    f'.countries = f.countries ∧ f'.operators = f.operators ∧
    f'.statuses = f.statuses) ∨
  (f.operators ≠ [] ∧ (∃ v, f'.operators = f.operators ++ [v]) ∧
    f'.countries = f.countries ∧ f'.phoneTypes = f.phoneTypes ∧
    f'.statuses = f.statuses) ∨
  (f.statuses ≠ [] ∧ (∃ v, f'.statuses = f.statuses ++ [v]) ∧
    f'.countries = f.countries ∧ f'.phoneTypes = f.phoneTypes ∧
    f'.operators = f.operators)

/-- Appending to a non-empty allow-list weakens an optional-dimension
condition. -/
theorem dim_cond_append {l : List String} {v : String} {a : Option String}
    (hne : l ≠ [])
    (h : l = [] ∨ a = none ∨ a = some "" ∨ ∃ c ∈ l, a = some c) :
    l ++ [v] = [] ∨ a = none ∨ a = some "" ∨ ∃ c ∈ l ++ [v], a = some c := by
  rcases h with h | h | h | ⟨c, hc, hac⟩
  · exact absurd h hne
  · exact Or.inr (Or.inl h)
  · exact Or.inr (Or.inr (Or.inl h))
  · exact Or.inr (Or.inr (Or.inr ⟨c, List.mem_append_left _ hc, hac⟩))

/-- Appending to a non-empty allow-list weakens a required-dimension
condition. -/
theorem dim_cond_append' {l : List String} {v s : String}
    (hne : l ≠ []) (h : l = [] ∨ s ∈ l) : l ++ [v] = [] ∨ s ∈ l ++ [v] := by
  rcases h with h | h
  · exact absurd h hne
  · exact Or.inr (List.mem_append_left _ h)

/-- A point passing the filter still passes after one non-empty widening
step. -/
theorem passesFilter_mono {f f' : FilterState} (p : CoveragePoint)
    (h : WidensOne f f') (hp : passesFilter f p = true) :
    passesFilter f' p = true := by
  rw [passesFilter_eq_true_iff, countryBlocked_eq_false_iff,
    phoneTypeBlocked_eq_false_iff, operatorBlocked_eq_false_iff,
    statusBlocked_eq_false_iff] at hp ⊢
  rcases hp with ⟨hc, hph, hop, hst⟩
  rcases h with ⟨hne, ⟨v, hv⟩, h2, h3, h4⟩ | ⟨hne, ⟨v, hv⟩, h2, h3, h4⟩ |
    ⟨hne, ⟨v, hv⟩, h2, h3, h4⟩ | ⟨hne, ⟨v, hv⟩, h2, h3, h4⟩
  · rw [hv, h2, h3, h4]
    exact ⟨dim_cond_append hne hc, hph, hop, hst⟩
  · rw [hv, h2, h3, h4]
    exact ⟨hc, dim_cond_append hne hph, hop, hst⟩
  · rw [hv, h2, h3, h4]
    exact ⟨hc, hph, dim_cond_append' hne hop, hst⟩
  · rw [hv, h2, h3, h4]
    exact ⟨hc, hph, hop, dim_cond_append' hne hst⟩

open Classical in
/-- C8 amended: for a fixed chunk and point set, widening one allow-list
by appending a value never decreases the count of qualifying points,
PROVIDED the widened list was already non-empty.  (For an empty list the
claim fails: an empty list means "no filtering", so appending a first
value introduces a restriction; see the counterexample.) -/
theorem claim_C8_amended (points : List CoveragePoint) (segment : List LatLng)
    (radius : ℚ) (f f' : FilterState) (h : WidensOne f f') :
    (qualifying points segment f radius).length ≤
      (qualifying points segment f' radius).length := by
  unfold qualifying
  rw [← List.countP_eq_length_filter, ← List.countP_eq_length_filter]
  apply List.countP_mono_left
  intro ip _ hip
  rcases of_decide_eq_true hip with ⟨hp, hnear⟩
  exact decide_eq_true ⟨passesFilter_mono ip.2 h hp, hnear⟩

/-- C8 amended witness: a widening step on a non-empty country list. -/
theorem claim_C8_amended_witness :
    WidensOne ⟨["CA"], [], [], []⟩ ⟨["CA", "US"], [], [], []⟩ ∧
    (qualifying [] [] ⟨["CA"], [], [], []⟩ DEFAULT_SEARCH_RADIUS).length ≤
      (qualifying [] [] ⟨["CA", "US"], [], [], []⟩ DEFAULT_SEARCH_RADIUS).length := by
  have hw : WidensOne ⟨["CA"], [], [], []⟩ ⟨["CA", "US"], [], [], []⟩ :=
    Or.inl ⟨by decide, ⟨"US", rfl⟩, rfl, rfl, rfl⟩
  exact ⟨hw, claim_C8_amended [] [] DEFAULT_SEARCH_RADIUS _ _ hw⟩

open Classical in
/-- C8 counterexample: for the one-point chunk at the origin and a 5G
observation there with country `"CA"`, widening the empty country list by
adding the allowed value `"US"` DECREASES the count of qualifying points
from 1 to 0 -- an empty list imposes no restriction, so its widening is a
restriction. -/
theorem claim_C8_counterexample :
    (qualifying [pointCA] chunkOrigin ⟨["US"], [], [], []⟩
        DEFAULT_SEARCH_RADIUS).length <
      (qualifying [pointCA] chunkOrigin emptyFilters DEFAULT_SEARCH_RADIUS).length := by
  have hcand : collectNearby (buildSpatialIndex [pointCA]) chunkOrigin
      DEFAULT_SEARCH_RADIUS = [(0, pointCA)] := by
    unfold chunkOrigin
    exact collectNearby_single_point pointCA (LatLng.mk 0 0) DEFAULT_SEARCH_RADIUS
      (center_mem_getNearbyGridKeys _ _ _)
  have hq0 : qualifies chunkOrigin emptyFilters DEFAULT_SEARCH_RADIUS
      (0, pointCA) := by
    refine ⟨by decide, ?_⟩
    exact nearby_origin DEFAULT_SEARCH_RADIUS (by norm_num [DEFAULT_SEARCH_RADIUS])
  have hq1 : ¬qualifies chunkOrigin ⟨["US"], [], [], []⟩ DEFAULT_SEARCH_RADIUS
      (0, pointCA) := by
    rintro ⟨hp, -⟩
    revert hp
    decide
  unfold qualifying
  rw [hcand]
  simp [List.filter_cons, decide_eq_true hq0, decide_eq_false hq1]

/-- The kept-segment list is the positive-count filter of the per-chunk
result sequence, and both loops thread the cache identically. -/
theorem runChunks_eq_filter (filters : FilterState) :
    ∀ (l : List (List LatLng)) (c : Calculator),
      (runChunks filters c l).1 =
        ((chunkResults filters c l).1).filter hasPositiveCount ∧
      (runChunks filters c l).2 = (chunkResults filters c l).2 := by
  intro l
  induction l with
  | nil => intro c; exact ⟨rfl, rfl⟩
  | cons chunk t ih =>
    intro c
    unfold runChunks chunkResults
    simp only []
    rcases ih (calculateSegmentCoverage c chunk filters DEFAULT_SEARCH_RADIUS).2 with
      ⟨ih1, ih2⟩
    rw [List.filter_cons]
    constructor
    · by_cases hpos :
        hasPositiveCount (calculateSegmentCoverage c chunk filters
          DEFAULT_SEARCH_RADIUS).1
      · simp [hpos, ih1]
      · simp [hpos, ih1]
    · exact ih2

/-- C4 (confirmed): `analyzeRouteCoverage` returns exactly the per-chunk
results with at least one positive breakdown count, in route order;
`totalSegments` is the number of kept segments; `averageCoverage` is the
mean of the kept scores and `NaN` (modelled `none`) when zero segments
are kept; and `coverageDistribution` has one entry per kept segment whose
`nearbyPoints` is the (NaN-propagating) sum of that segment's breakdown
values. -/
theorem claim_C4 (c : Calculator) (path : List LatLng) (filters : FilterState) :
    ((analyzeRouteCoverage c path filters).1).segments =
      ((chunkResults filters c (chunkPath path)).1).filter hasPositiveCount ∧
    ((analyzeRouteCoverage c path filters).1).stats.totalSegments =
      ((analyzeRouteCoverage c path filters).1).segments.length ∧
    ((analyzeRouteCoverage c path filters).1).stats.averageCoverage =
      (if ((analyzeRouteCoverage c path filters).1).segments.length = 0 then none
        else some
          ((((analyzeRouteCoverage c path filters).1).segments.map
            RouteSegment.coverage).sum /
            ((((analyzeRouteCoverage c path filters).1).segments.length : ℚ)))) ∧
    ((analyzeRouteCoverage c path filters).1).stats.coverageDistribution =
      ((analyzeRouteCoverage c path filters).1).segments.map fun s =>
        { coverage := s.coverage, color := getCoverageColor s.coverage,
          nearbyPoints := jsSum (s.coverageDetails.map Prod.snd) } := by
  refine ⟨?_, rfl, rfl, rfl⟩
  show (runChunks filters c (chunkPath path)).1 = _
  exact (runChunks_eq_filter filters (chunkPath path) c).1

/-- Lemma: `digitVal` inverts `digitChar` on digit values. -/
theorem digitVal_digitChar : ∀ d < 10, digitVal (digitChar d) = d := by decide

/-- A digit character is none of the separator characters used by the
cache key. -/
theorem digitChar_ne_sep (d : ℕ) :
    digitChar d ≠ ',' ∧ digitChar d ≠ '|' ∧ digitChar d ≠ '-' ∧
      digitChar d ≠ '/' ∧ digitChar d ≠ '\x7b' := by
  unfold digitChar
  split <;> refine ⟨?_, ?_, ?_, ?_, ?_⟩ <;> decide

/-- The decimal rendering of a natural number is injective
(`Nat.ofDigits` recovers the number from its digits). -/
theorem natStr_inj {m n : ℕ} (h : natStr m = natStr n) : m = n := by
  have hrec : ∀ k : ℕ,
      ((Nat.digits 10 k).map digitChar).map digitVal = Nat.digits 10 k := by
    intro k
    rw [List.map_map]
    have hcg : ∀ a ∈ Nat.digits 10 k, (digitVal ∘ digitChar) a = id a := by
      intro a ha
      have hlt : a < 10 := Nat.digits_lt_base (by norm_num) ha
      simpa using digitVal_digitChar a hlt
    rw [List.map_congr_left hcg, List.map_id]
  have hmap : (Nat.digits 10 m).map digitChar = (Nat.digits 10 n).map digitChar := by
    have := congrArg List.reverse h
    simpa [natStr] using this
  have hdig : Nat.digits 10 m = Nat.digits 10 n := by
    rw [← hrec m, ← hrec n, hmap]
  calc m = Nat.ofDigits 10 (Nat.digits 10 m) := (Nat.ofDigits_digits 10 m).symm
    _ = Nat.ofDigits 10 (Nat.digits 10 n) := by rw [hdig]
    _ = n := Nat.ofDigits_digits 10 n

/-- Every character of a decimal rendering is a digit character. -/
theorem mem_natStr {c : Char} {n : ℕ} (h : c ∈ natStr n) : ∃ d, c = digitChar d := by
  unfold natStr at h
  rw [List.mem_reverse] at h
  rcases List.mem_map.mp h with ⟨d, _, hd⟩
  exact ⟨d, hd.symm⟩

/-- The integer rendering is injective. -/
theorem intStr_inj {m n : ℤ} (h : intStr m = intStr n) : m = n := by
  unfold intStr at h
  by_cases hm : m < 0 <;> by_cases hn : n < 0
  · rw [if_pos hm, if_pos hn] at h
    have := natStr_inj (List.cons.inj h).2
    omega
  · rw [if_pos hm, if_neg hn] at h
    exfalso
    have hmem : '-' ∈ natStr n.toNat := h ▸ List.mem_cons_self '-' _
    rcases mem_natStr hmem with ⟨d, hd⟩
    exact (digitChar_ne_sep d).2.2.1 hd.symm
  · rw [if_neg hm, if_pos hn] at h
    exfalso
    have hmem : '-' ∈ natStr m.toNat := h.symm ▸ List.mem_cons_self '-' _
    rcases mem_natStr hmem with ⟨d, hd⟩
    exact (digitChar_ne_sep d).2.2.1 hd.symm
  · rw [if_neg hm, if_neg hn] at h
    have := natStr_inj h
    omega

/-- Splitting at a separator absent from both prefixes is unambiguous. -/
theorem append_sep_inj {sep : Char} :
    ∀ {s1 s2 t1 t2 : List Char}, sep ∉ s1 → sep ∉ s2 →
      s1 ++ sep :: t1 = s2 ++ sep :: t2 → s1 = s2 ∧ t1 = t2 := by
  intro s1
  induction s1 with
  | nil =>
    intro s2 t1 t2 _ h2 h
    cases s2 with
    | nil => exact ⟨rfl, (List.cons.inj h).2⟩
    | cons d s2' =>
      exfalso
      have hd : sep = d := (List.cons.inj h).1
      exact h2 (hd ▸ List.mem_cons_self d s2')
  | cons c s1' ih =>
    intro s2 t1 t2 h1 h2 h
    cases s2 with
    | nil =>
      exfalso
      have hd : c = sep := (List.cons.inj h).1
      exact h1 (hd ▸ List.mem_cons_self c s1')
    | cons d s2' =>
      have hcd : c = d := (List.cons.inj h).1
      have hrest := (List.cons.inj h).2
      have h1' : sep ∉ s1' := fun hx => h1 (List.mem_cons_of_mem c hx)
      have h2' : sep ∉ s2' := fun hx => h2 (List.mem_cons_of_mem d hx)
      rcases ih h1' h2' hrest with ⟨hs, ht⟩
      exact ⟨by rw [hcd, hs], ht⟩

/-- The rational rendering is injective. -/
theorem ratStr_inj {p q : ℚ} (h : ratStr p = ratStr q) : p = q := by
  unfold ratStr at h
  have hsl : ('/' : Char) ∉ intStr p.num := by
    intro hmem
    unfold intStr at hmem
    split at hmem
    · rcases List.mem_cons.mp hmem with h' | h'
      · exact absurd h'.symm (by decide)
      · rcases mem_natStr h' with ⟨d, hd⟩
        exact (digitChar_ne_sep d).2.2.2.1 hd.symm
    · rcases mem_natStr hmem with ⟨d, hd⟩
      exact (digitChar_ne_sep d).2.2.2.1 hd.symm
  have hsr : ('/' : Char) ∉ intStr q.num := by
    intro hmem
    unfold intStr at hmem
    split at hmem
    · rcases List.mem_cons.mp hmem with h' | h'
      · exact absurd h'.symm (by decide)
      · rcases mem_natStr h' with ⟨d, hd⟩
        exact (digitChar_ne_sep d).2.2.2.1 hd.symm
    · rcases mem_natStr hmem with ⟨d, hd⟩
      exact (digitChar_ne_sep d).2.2.2.1 hd.symm
  rcases append_sep_inj hsl hsr h with ⟨hnum, hden⟩
  have h1 : p.num = q.num := intStr_inj hnum
  have h2 : p.den = q.den := natStr_inj hden
  exact Rat.ext h1 h2

/-- Every character of an integer rendering is a digit or the minus sign. -/
theorem mem_intStr {c : Char} {n : ℤ} (h : c ∈ intStr n) :
    c = '-' ∨ ∃ d, c = digitChar d := by
  unfold intStr at h
  split at h
  · rcases List.mem_cons.mp h with h' | h'
    · exact Or.inl h'
    · exact Or.inr (mem_natStr h')
  · exact Or.inr (mem_natStr h)

/-- Every character of a rational rendering is a digit, minus, or slash. -/
theorem mem_ratStr {c : Char} {q : ℚ} (h : c ∈ ratStr q) :
    c = '-' ∨ c = '/' ∨ ∃ d, c = digitChar d := by
  unfold ratStr at h
  rcases List.mem_append.mp h with h' | h'
  · rcases mem_intStr h' with h'' | h''
    · exact Or.inl h''
    · exact Or.inr (Or.inr h'')
  · rcases List.mem_cons.mp h' with h'' | h''
    · exact Or.inr (Or.inl h'')
    · exact Or.inr (Or.inr (mem_natStr h''))

/-- No rational rendering contains a comma, a bar, or an opening brace. -/
theorem ratStr_sep_free {c : Char} {q : ℚ} (h : c ∈ ratStr q) :
    c ≠ ',' ∧ c ≠ '|' ∧ c ≠ '\x7b' := by
  rcases mem_ratStr h with h' | h' | ⟨d, h'⟩
  · subst h'
    refine ⟨by decide, by decide, by decide⟩
  · subst h'
    refine ⟨by decide, by decide, by decide⟩
  · subst h'
    exact ⟨(digitChar_ne_sep d).1, (digitChar_ne_sep d).2.1, (digitChar_ne_sep d).2.2.2.2⟩

/-- The per-point token is injective (the comma splits it
unambiguously). -/
theorem coordToken_inj {p q : LatLng} (h : coordToken p = coordToken q) : p = q := by
  unfold coordToken at h
  have h1 : (',' : Char) ∉ ratStr p.lat := fun hm => (ratStr_sep_free hm).1 rfl
  have h2 : (',' : Char) ∉ ratStr q.lat := fun hm => (ratStr_sep_free hm).1 rfl
  rcases append_sep_inj h1 h2 h with ⟨hlat, hlng⟩
  cases p
  cases q
  simp only [LatLng.mk.injEq]
  exact ⟨ratStr_inj hlat, ratStr_inj hlng⟩

/-- No token character is a bar or an opening brace. -/
theorem coordToken_sep_free {c : Char} {p : LatLng} (h : c ∈ coordToken p) :
    c ≠ '|' ∧ c ≠ '\x7b' := by
  unfold coordToken at h
  rcases List.mem_append.mp h with h' | h'
  · exact ⟨(ratStr_sep_free h').2.1, (ratStr_sep_free h').2.2⟩
  · rcases List.mem_cons.mp h' with h'' | h''
    · subst h''
      exact ⟨by decide, by decide⟩
    · exact ⟨(ratStr_sep_free h'').2.1, (ratStr_sep_free h'').2.2⟩

/-- A token is never empty (it contains its comma). -/
theorem coordToken_ne_nil (p : LatLng) : coordToken p ≠ [] := by
  unfold coordToken
  intro h
  have : (',' : Char) ∈ ratStr p.lat ++ ',' :: ratStr p.lng := by simp
  rw [h] at this
  cases this

/-- Unfolding equation for a non-trivial join. -/
theorem joinSep_cons (sep : Char) (x : List Char) (l : List (List Char)) :
    joinSep sep (x :: l) = x ++ (if l = [] then [] else sep :: joinSep sep l) := by
  cases l with
  | nil => simp [joinSep]
  | cons y ys => simp [joinSep]

/-- A character of a join is the separator or a character of a token. -/
theorem mem_joinSep {sep : Char} {c : Char} :
    ∀ {xs : List (List Char)}, c ∈ joinSep sep xs →
      c = sep ∨ ∃ t ∈ xs, c ∈ t := by
  intro xs
  induction xs with
  | nil => intro h; cases h
  | cons x l ih =>
    intro h
    rw [joinSep_cons] at h
    rcases List.mem_append.mp h with h' | h'
    · exact Or.inr ⟨x, List.mem_cons_self x l, h'⟩
    · split at h'
      · cases h'
      · rcases List.mem_cons.mp h' with h'' | h''
        · exact Or.inl h''
        · rcases ih h'' with h3 | ⟨t, ht, hc⟩
          · exact Or.inl h3
          · exact Or.inr ⟨t, List.mem_cons_of_mem x ht, hc⟩

/-- Joining non-empty, separator-free tokens is injective. -/
theorem joinSep_inj {sep : Char} :
    ∀ {xs ys : List (List Char)},
      (∀ t ∈ xs, t ≠ [] ∧ sep ∉ t) → (∀ t ∈ ys, t ≠ [] ∧ sep ∉ t) →
      joinSep sep xs = joinSep sep ys → xs = ys := by
  intro xs
  induction xs with
  | nil =>
    intro ys _ hys h
    cases ys with
    | nil => rfl
    | cons y l =>
      exfalso
      rw [joinSep_cons] at h
      rcases List.append_eq_nil.mp h.symm with ⟨hy, -⟩
      exact (hys y (List.mem_cons_self y l)).1 hy
  | cons x l ih =>
    intro ys hxs hys h
    cases ys with
    | nil =>
      exfalso
      rw [joinSep_cons] at h
      rcases List.append_eq_nil.mp h with ⟨hy, -⟩
      exact (hxs x (List.mem_cons_self x l)).1 hy
    | cons y m =>
      rw [joinSep_cons, joinSep_cons] at h
      by_cases hl : l = []
      · by_cases hm : m = []
        · rw [if_pos hl, if_pos hm, List.append_nil, List.append_nil] at h
          rw [h, hl, hm]
        · exfalso
          rw [if_pos hl, if_neg hm, List.append_nil] at h
          have hsep : sep ∈ x := by
            rw [h]
            exact List.mem_append_right y (List.mem_cons_self sep _)
          exact (hxs x (List.mem_cons_self x l)).2 hsep
      · by_cases hm : m = []
        · exfalso
          rw [if_neg hl, if_pos hm, List.append_nil] at h
          have hsep : sep ∈ y := by
            rw [← h]
            exact List.mem_append_right x (List.mem_cons_self sep _)
          exact (hys y (List.mem_cons_self y m)).2 hsep
        · rw [if_neg hl, if_neg hm] at h
          rcases append_sep_inj (hxs x (List.mem_cons_self x l)).2
            (hys y (List.mem_cons_self y m)).2 h with ⟨hxy, hrest⟩
          have hlm : l = m :=
            ih (fun t ht => hxs t (List.mem_cons_of_mem x ht))
              (fun t ht => hys t (List.mem_cons_of_mem y ht)) hrest
          rw [hxy, hlm]

/-- Unfolding equation for escaping a first character. -/
theorem escStr_cons (c : Char) (l : List Char) :
    escStr (c :: l) = escChar c ++ escStr l := by
  simp [escStr]

/-- Escaping an empty sequence yields the empty sequence. -/
theorem escStr_nil : escStr [] = [] := rfl

/-- An escaped sequence followed by an unescaped closing quote parses
unambiguously: the quote or backslash characters inside are always
preceded by a backslash, so the first unescaped quote is the closer. -/
theorem escStr_quote_inj :
    ∀ {a b r s : List Char},
      escStr a ++ '"' :: r = escStr b ++ '"' :: s → a = b ∧ r = s := by
  intro a
  induction a with
  | nil =>
    intro b r s h
    cases b with
    | nil => exact ⟨rfl, by simpa [escStr_nil] using h⟩
    | cons d b' =>
      exfalso
      rw [escStr_nil, escStr_cons, List.nil_append, List.append_assoc] at h
      by_cases hd : d = '"' ∨ d = '\\'
      · rw [show escChar d = ['\\', d] from by unfold escChar; rw [if_pos hd]] at h
        exact absurd (List.cons.inj h).1 (by decide)
      · rw [show escChar d = [d] from by unfold escChar; rw [if_neg hd]] at h
        have h1 : '"' = d := (List.cons.inj h).1
        exact hd (Or.inl h1.symm)
  | cons c a' ih =>
    intro b r s h
    cases b with
    | nil =>
      exfalso
      rw [escStr_nil, escStr_cons, List.nil_append, List.append_assoc] at h
      by_cases hc : c = '"' ∨ c = '\\'
      · rw [show escChar c = ['\\', c] from by unfold escChar; rw [if_pos hc]] at h
        exact absurd (List.cons.inj h).1 (by decide)
      · rw [show escChar c = [c] from by unfold escChar; rw [if_neg hc]] at h
        have h1 : c = '"' := (List.cons.inj h).1
        exact hc (Or.inl h1)
    | cons d b' =>
      rw [escStr_cons, escStr_cons, List.append_assoc, List.append_assoc] at h
      by_cases hc : c = '"' ∨ c = '\\' <;> by_cases hd : d = '"' ∨ d = '\\'
      · rw [show escChar c = ['\\', c] from by unfold escChar; rw [if_pos hc],
          show escChar d = ['\\', d] from by unfold escChar; rw [if_pos hd]] at h
        have h1 : c = d := (List.cons.inj (List.cons.inj h).2).1
        have h2 := (List.cons.inj (List.cons.inj h).2).2
        rcases ih h2 with ⟨hab, hrs⟩
        exact ⟨by rw [h1, hab], hrs⟩
      · exfalso
        rw [show escChar c = ['\\', c] from by unfold escChar; rw [if_pos hc],
          show escChar d = [d] from by unfold escChar; rw [if_neg hd]] at h
        have h1 : '\\' = d := (List.cons.inj h).1
        exact hd (Or.inr h1.symm)
      · exfalso
        rw [show escChar c = [c] from by unfold escChar; rw [if_neg hc],
          show escChar d = ['\\', d] from by unfold escChar; rw [if_pos hd]] at h
        have h1 : c = '\\' := (List.cons.inj h).1
        exact hc (Or.inr h1)
      · rw [show escChar c = [c] from by unfold escChar; rw [if_neg hc],
          show escChar d = [d] from by unfold escChar; rw [if_neg hd]] at h
        have h1 : c = d := (List.cons.inj h).1
        have h2 := (List.cons.inj h).2
        rcases ih h2 with ⟨hab, hrs⟩
        exact ⟨by rw [h1, hab], hrs⟩

/-- A quoted JSON string literal followed by a remainder parses
unambiguously. -/
theorem quoteStr_inj_rest {a b : String} {r s : List Char}
    (h : quoteStr a ++ r = quoteStr b ++ s) : a = b ∧ r = s := by
  unfold quoteStr at h
  simp only [List.cons_append, List.append_assoc, List.singleton_append] at h
  have h2 := (List.cons.inj h).2
  rcases escStr_quote_inj h2 with ⟨hdata, hrs⟩
  exact ⟨String.ext hdata, hrs⟩

/-- The comma-joined quoted tokens of a JSON array, followed by the
closing bracket and a remainder, parse unambiguously. -/
theorem arrTokens_inj :
    ∀ {xs ys : List String} {r s : List Char},
      joinSep ',' (xs.map quoteStr) ++ ']' :: r =
        joinSep ',' (ys.map quoteStr) ++ ']' :: s → xs = ys ∧ r = s := by
  intro xs
  induction xs with
  | nil =>
    intro ys r s h
    cases ys with
    | nil =>
      simp only [List.map_nil, joinSep, List.nil_append] at h
      exact ⟨rfl, (List.cons.inj h).2⟩
    | cons y m =>
      exfalso
      simp only [List.map_nil, List.map_cons, joinSep_cons, joinSep,
        List.nil_append] at h
      rw [List.append_assoc] at h
      unfold quoteStr at h
      simp only [List.cons_append] at h
      exact absurd (List.cons.inj h).1 (by decide)
  | cons x l ih =>
    intro ys r s h
    cases ys with
    | nil =>
      exfalso
      simp only [List.map_nil, List.map_cons, joinSep_cons, joinSep,
        List.nil_append] at h
      rw [List.append_assoc] at h
      unfold quoteStr at h
      simp only [List.cons_append] at h
      exact absurd (List.cons.inj h).1 (by decide)
    | cons y m =>
      simp only [List.map_cons, joinSep_cons] at h
      rw [List.append_assoc, List.append_assoc] at h
      rcases quoteStr_inj_rest h with ⟨hxy, hrest⟩
      by_cases hl : l = [] <;> by_cases hm : m = []
      · rw [if_pos (by rw [hl]; rfl), if_pos (by rw [hm]; rfl),
          List.nil_append, List.nil_append] at hrest
        have hr : r = s := (List.cons.inj hrest).2
        rw [hxy, hl, hm, hr]
        exact ⟨rfl, rfl⟩
      · exfalso
        rw [if_pos (by rw [hl]; rfl), if_neg (by simp [hm]), List.nil_append,
          List.cons_append] at hrest
        exact absurd (List.cons.inj hrest).1 (by decide)
      · exfalso
        rw [if_neg (by simp [hl]), if_pos (by rw [hm]; rfl), List.nil_append,
          List.cons_append] at hrest
        exact absurd (List.cons.inj hrest).1 (by decide)
      · rw [if_neg (by simp [hl]), if_neg (by simp [hm]), List.cons_append,
          List.cons_append] at hrest
        rcases ih (List.cons.inj hrest).2 with ⟨hlm, hrs⟩
        rw [hxy, hlm]
        exact ⟨rfl, hrs⟩

/-- A serialized JSON string array followed by a remainder parses
unambiguously. -/
theorem arrStr_inj_rest {xs ys : List String} {r s : List Char}
    (h : arrStr xs ++ r = arrStr ys ++ s) : xs = ys ∧ r = s := by
  unfold arrStr at h
  simp only [List.cons_append, List.append_assoc, List.singleton_append] at h
  exact arrTokens_inj (List.cons.inj h).2

/-- The filter serialization is injective: the four arrays are recovered
between the fixed key literals. -/
theorem serializeFilters_inj {f1 f2 : FilterState}
    (h : serializeFilters f1 = serializeFilters f2) : f1 = f2 := by
  unfold serializeFilters at h
  simp only [List.append_assoc, List.cons_append] at h
  have h1 := (List.cons.inj h).2
  rcases quoteStr_inj_rest h1 with ⟨-, h2⟩
  have h3 := (List.cons.inj h2).2
  rcases arrStr_inj_rest h3 with ⟨hcountries, h4⟩
  have h5 := (List.cons.inj h4).2
  rcases quoteStr_inj_rest h5 with ⟨-, h6⟩
  have h7 := (List.cons.inj h6).2
  rcases arrStr_inj_rest h7 with ⟨hphones, h8⟩
  have h9 := (List.cons.inj h8).2
  rcases quoteStr_inj_rest h9 with ⟨-, h10⟩
  have h11 := (List.cons.inj h10).2
  rcases arrStr_inj_rest h11 with ⟨hoperators, h12⟩
  have h13 := (List.cons.inj h12).2
  rcases quoteStr_inj_rest h13 with ⟨-, h14⟩
  have h15 := (List.cons.inj h14).2
  rcases arrStr_inj_rest h15 with ⟨hstatuses, -⟩
  cases f1
  cases f2
  simp only [FilterState.mk.injEq]
  exact ⟨hcountries, hphones, hoperators, hstatuses⟩

/-- No character of the segment part of the key is an opening brace. -/
theorem segPart_brace_free {segment : List LatLng} :
    ('\x7b' : Char) ∉ joinSep '|' (segment.map coordToken) ++ ['|'] := by
  intro h
  rcases List.mem_append.mp h with h' | h'
  · rcases mem_joinSep h' with h'' | ⟨t, ht, hc⟩
    · exact absurd h'' (by decide)
    · rcases List.mem_map.mp ht with ⟨p, -, hp⟩
      exact (coordToken_sep_free (hp ▸ hc)).2 rfl
  · exact absurd (List.mem_singleton.mp h') (by decide)

/-- C9's core: the cache fingerprint is injective in the segment's
coordinate list and the filter state. -/
theorem getCacheKey_inj {s1 s2 : List LatLng} {f1 f2 : FilterState}
    (h : getCacheKey s1 f1 = getCacheKey s2 f2) : s1 = s2 ∧ f1 = f2 := by
  have hdata : joinSep '|' (s1.map coordToken) ++ '|' :: serializeFilters f1 =
      joinSep '|' (s2.map coordToken) ++ '|' :: serializeFilters f2 :=
    congrArg String.data h
  obtain ⟨B1, hB1⟩ : ∃ B, serializeFilters f1 = '\x7b' :: B := ⟨_, rfl⟩
  obtain ⟨B2, hB2⟩ : ∃ B, serializeFilters f2 = '\x7b' :: B := ⟨_, rfl⟩
  rw [hB1, hB2] at hdata
  have hdata' : (joinSep '|' (s1.map coordToken) ++ ['|']) ++ '\x7b' :: B1 =
      (joinSep '|' (s2.map coordToken) ++ ['|']) ++ '\x7b' :: B2 := by
    simpa [List.append_assoc] using hdata
  rcases append_sep_inj segPart_brace_free segPart_brace_free hdata' with ⟨hseg, hbody⟩
  constructor
  · have hjoin := List.append_cancel_right hseg
    have htok : ∀ t ∈ s1.map coordToken, t ≠ [] ∧ ('|' : Char) ∉ t := by
      intro t ht
      rcases List.mem_map.mp ht with ⟨p, -, hp⟩
      subst hp
      exact ⟨coordToken_ne_nil p, fun hc => (coordToken_sep_free hc).1 rfl⟩
    have htok' : ∀ t ∈ s2.map coordToken, t ≠ [] ∧ ('|' : Char) ∉ t := by
      intro t ht
      rcases List.mem_map.mp ht with ⟨p, -, hp⟩
      subst hp
      exact ⟨coordToken_ne_nil p, fun hc => (coordToken_sep_free hc).1 rfl⟩
    have hmap := joinSep_inj htok htok' hjoin
    exact List.map_injective_iff.mpr (fun a b hab => coordToken_inj hab) hmap
  · apply serializeFilters_inj
    rw [hB1, hB2, hbody]

/-- A successful cache lookup comes from an entry of the cache list. -/
theorem mem_of_lookup_eq_some {k : String} {v : RouteSegment} :
    ∀ {l : List (String × RouteSegment)}, l.lookup k = some v → (k, v) ∈ l := by
  intro l
  induction l with
  | nil => intro h; cases h
  | cons a t ih =>
    intro h
    cases a with
    | mk k' v' =>
      by_cases hkk : k = k'
      · subst hkk
        simp [List.lookup] at h
        rw [h]
        exact List.mem_cons_self _ _
      · have hbeq : (k == k') = false := beq_false_of_ne hkk
        simp [List.lookup, hbeq] at h
        exact List.mem_cons_of_mem _ (ih h)

/-- C9 (confirmed): the fingerprint is collision-free -- equal cache keys
force equal coordinate sequences and equal filter states -- and therefore
`calculateSegmentCoverage` on a well-formed cache only ever returns a
value that was computed for ITS OWN (segment, filter) pair (at some
radius; the radius is not part of the fingerprint). -/
theorem claim_C9 (s1 s2 : List LatLng) (f1 f2 : FilterState) (c : Calculator)
    (s : List LatLng) (f : FilterState) (rad : ℚ) :
    (getCacheKey s1 f1 = getCacheKey s2 f2 → s1 = s2 ∧ f1 = f2) ∧
    (CacheWF c → ∃ rad', (calculateSegmentCoverage c s f rad).1 =
      computeSegment c.points s f rad') := by
  constructor
  · exact getCacheKey_inj
  · intro hwf
    cases hlook : c.cache.lookup (getCacheKey s f) with
    | some r =>
      rw [calculateSegmentCoverage_hit c s f rad r hlook]
      rcases hwf _ _ (mem_of_lookup_eq_some hlook) with ⟨s', f', rad', hk, hv⟩
      rcases getCacheKey_inj hk with ⟨hs, hf⟩
      refine ⟨rad', ?_⟩
      rw [hv, ← hs, ← hf]
    | none =>
      rw [calculateSegmentCoverage_miss c s f rad hlook]
      exact ⟨rad, rfl⟩

/-- C9 witness: both hypotheses hold at a concrete input (equal arguments
share a key, and a fresh calculator's empty cache is well-formed), and
the theorem's conclusions follow there. -/
theorem claim_C9_witness :
    getCacheKey [] emptyFilters = getCacheKey [] emptyFilters ∧
    CacheWF (Calculator.init []) ∧
    (([] : List LatLng) = [] ∧ emptyFilters = emptyFilters) ∧
    (∃ rad', (calculateSegmentCoverage (Calculator.init []) [] emptyFilters 1).1 =
      computeSegment (Calculator.init []).points [] emptyFilters rad') :=
  ⟨rfl, fun k v h => absurd h (List.not_mem_nil (k, v)),
    (claim_C9 [] [] emptyFilters emptyFilters (Calculator.init [])
      [] emptyFilters 1).1 rfl,
    (claim_C9 [] [] emptyFilters emptyFilters (Calculator.init [])
      [] emptyFilters 1).2 (fun k v h => absurd h (List.not_mem_nil (k, v)))⟩
